import Mathlib

/-!
Verification of the expense-manager extraction-to-persistence pipeline.

A shallow embedding of the core of the `expense-manager` repository:
the field normalizer and fingerprinter (`src/utils/deduplication.ts`),
the four statement parsers (`src/parsers/*.ts`), the deduplicating
persistence gateway (`src/services/firestoreService.ts`) and the import
job orchestrator (`src/composables/useUpload.ts`).

Modelling conventions:
* JavaScript strings are `String` / `List Char`; the specific regular
  expressions used by the source are implemented as explicit scanners
  with the exact same matching semantics (greedy runs over disjoint
  character classes, leftmost match, non-overlapping global scans).
* JavaScript numbers are modelled as exact rationals `ℚ`;
  `Math.round x` is `⌊x + 1/2⌋` (round half toward positive infinity),
  which is the ECMAScript definition of `Math.round` in exact arithmetic.
* `CryptoJS.SHA256` is modelled by a full FIPS 180-4 SHA-256
  implementation over byte lists, with words as `Nat` reduced mod 2^32.
* The Firestore store is a key-ordered association list
  `List (String × StoredDoc)`; `runTransaction` makes the whole
  read-then-branch-then-write of `upsertExpense` one atomic step, so the
  transaction is modelled as a pure `Store → result × Store` function and
  a concurrent pair of transactions as the two serial orders.
* Fallible steps (PDF text extraction) are `Except String`.
-/

-- Core marks the `Rat` field operations `@[irreducible]`, which blocks
-- `decide` on concrete rational computations; restore the default
-- reducibility for this file so witnesses evaluate.
attribute [local semireducible] Rat.add Rat.mul Rat.inv Rat.sub Rat.ofScientific

/-! ## JavaScript character classes and string helpers -/

/-- The character set matched by the JavaScript regex class `\s`
    (ECMAScript WhiteSpace ∪ LineTerminator). -/
def jsWhitespaceChar (c : Char) : Bool :=
  let n := c.toNat
  n = 0x20 ∨ n = 0x9 ∨ n = 0xa ∨ n = 0xb ∨ n = 0xc ∨ n = 0xd ∨
  n = 0xa0 ∨ n = 0x1680 ∨ (0x2000 ≤ n ∧ n ≤ 0x200a) ∨
  n = 0x2028 ∨ n = 0x2029 ∨ n = 0x202f ∨ n = 0x205f ∨ n = 0x3000 ∨ n = 0xfeff

/-- Model of `String.prototype.trim` on a character list: strip `\s` characters
    from both ends. -/
def jsTrimList (l : List Char) : List Char :=
  ((l.dropWhile jsWhitespaceChar).reverse.dropWhile jsWhitespaceChar).reverse

/-- Model of `String.prototype.toUpperCase`, restricted to ASCII (every string the
    program uppercases is ASCII). -/
def asciiUpperList (l : List Char) : List Char := l.map Char.toUpper

/-- Model of `String.prototype.toLowerCase`, restricted to ASCII. -/
def asciiLowerList (l : List Char) : List Char := l.map Char.toLower

/-- Digit run at the front of a list: `(run, rest)`. -/
def digitSpan (l : List Char) : List Char × List Char :=
  l.span Char.isDigit

/-- Numeric value of a list of decimal digit characters. -/
def digitsToNat (l : List Char) : Nat :=
  l.foldl (fun n c => n * 10 + (c.toNat - '0'.toNat)) 0

/-! ## `normalizeAmount` (src/utils/deduplication.ts lines 56–65)

```js
const cleaned = rawAmount.replace(/[₹$€£,\s]/g, '').trim()
const parsed = parseFloat(cleaned)
if (isNaN(parsed)) return 0
return Math.round(parsed * 100) / 100
```
-/

/-- Characters removed by the regex `[₹$€£,\s]` in `normalizeAmount`. -/
def strippedAmountChar (c : Char) : Bool :=
  c = '₹' ∨ c = '$' ∨ c = '€' ∨ c = '£' ∨ c = ',' ∨ jsWhitespaceChar c

/-- Decimal significand parse for `parseFloat`: optional sign, then
    `digits [. digits]` or `. digits` (at least one digit overall),
    then an optional exponent part `(e|E) sign? digits`; trailing
    characters are ignored, exactly as `parseFloat` ignores them.
    Returns `none` when no decimal literal starts the string (JS `NaN`).
    Model restriction: the literals `Infinity`/`-Infinity` (which
    `parseFloat` accepts and which are not rationals) are treated as
    unparseable; no input the program produces contains them. -/
def parseFloatQ (l : List Char) : Option ℚ :=
  let (sign, l1) : ℚ × List Char :=
    match l with
    | '-' :: rest => (-1, rest)
    | '+' :: rest => (1, rest)
    | _ => (1, l)
  let (intPart, l2) := digitSpan l1
  let (fracPart, l3) : List Char × List Char :=
    match l2 with
    | '.' :: rest => digitSpan rest
    | _ => ([], l2)
  if intPart = [] ∧ fracPart = [] then none
  else
    let mantissa : ℚ :=
      (digitsToNat intPart : ℚ) + (digitsToNat fracPart : ℚ) / (10 : ℚ) ^ fracPart.length
    let expVal : ℤ :=
      match l3 with
      | 'e' :: rest | 'E' :: rest =>
        let (esign, r1) : ℤ × List Char :=
          match rest with
          | '-' :: r => (-1, r)
          | '+' :: r => (1, r)
          | _ => (1, rest)
        let (eDigits, _) := digitSpan r1
        if eDigits = [] then 0 else esign * (digitsToNat eDigits : ℤ)
      | _ => 0
    let scale : ℚ :=
      if 0 ≤ expVal then (10 : ℚ) ^ expVal.toNat
      else 1 / (10 : ℚ) ^ (-expVal).toNat
    some (sign * mantissa * scale)

/-- ECMAScript `Math.round` in exact arithmetic: the integer closest to
    `x`, ties rounding toward positive infinity, i.e. `⌊x + 1/2⌋`. -/
def jsMathRound (x : ℚ) : ℤ := ⌊x + 1 / 2⌋

/-- Model of `normalizeAmount(raw)` from src/utils/deduplication.ts. -/
def normalizeAmount (raw : String) : ℚ :=
  let cleaned := jsTrimList (raw.data.filter (fun c => ¬ strippedAmountChar c))
  match parseFloatQ cleaned with
  | none => 0
  | some parsed => (jsMathRound (parsed * 100) : ℚ) / 100

/-- The rounding rule stated by the spec, written from the words of the spec:
    round to the nearest cent with ties going away from zero. -/
def specRoundHalfAwayCent (x : ℚ) : ℚ :=
  if x < 0 then -((⌊(-x) * 100 + 1 / 2⌋ : ℚ) / 100)
  else (⌊x * 100 + 1 / 2⌋ : ℚ) / 100

/-- The amended rounding rule: round to the nearest cent with ties going
    toward positive infinity, phrased through the fractional part. -/
def specRoundHalfUpCent (x : ℚ) : ℚ :=
  if x * 100 - (⌊x * 100⌋ : ℚ) < 1 / 2 then (⌊x * 100⌋ : ℚ) / 100
  else (⌈x * 100⌉ : ℚ) / 100

/-- Model of `normalizeAmount` as the amended spec words describe it: strip the
    currency symbols `₹ $ € £`, commas and whitespace, parse the
    remainder as a decimal, round half-up at the cent, 0 if unparseable. -/
def specNormalizeAmountHalfUp (raw : String) : ℚ :=
  match parseFloatQ (jsTrimList (raw.data.filter (fun c => ¬ strippedAmountChar c))) with
  | none => 0
  | some parsed => specRoundHalfUpCent parsed

/-! ## Data model (src/types/expense.ts) -/

/-- Supported report sources (`ExpenseSource`). -/
inductive ExpenseSource where
  | phonepe | axis | hdfc | payzap
deriving DecidableEq

/-- Transaction completion status (`TransactionStatus`). -/
inductive TransactionStatus where
  | completed | pending | failed | reversed
deriving DecidableEq

/-- Duplicate-handling policy (`DuplicatePolicy`). -/
inductive DuplicatePolicy where
  | skip | update | mark_duplicate
deriving DecidableEq

/-- Intermediate structure returned by each parser (`RawTransaction`).
    `rawFields` is the audit mapping of raw strings, modelled as an
    association list in the order the source object literal writes it.
    The TypeScript `status` field is a plain string cast to the status
    union by the orchestrator; every parser only ever produces one of the
    four canonical values, so it is typed `Option TransactionStatus`
    here while `rawFields` keeps the raw string. -/
structure RawTransaction where
  sourceTransactionId : Option String := none
  date : String
  amount : String
  vendor : String
  transactionType : Option String := none
  category : Option String := none
  status : Option TransactionStatus := none
  rawFields : List (String × String)
deriving DecidableEq

/-- Canonical expense document (`CanonicalExpense`); `null` fields are
    `Option`, JS numbers are `ℚ`. -/
structure CanonicalExpense where
  id : String
  fingerprint : String
  source : ExpenseSource
  source_transaction_id : Option String
  date : String
  amount : ℚ
  currency : String
  vendor : String
  category : Option String
  status : TransactionStatus
  raw_text : List (String × String)
  source_file_checksum : String
  created_at : String
  updated_at : String
deriving DecidableEq

/-- Import job document (`ImportJob`). -/
structure ImportJob where
  jobId : String
  status : String -- one of: queued, processing, completed, failed
  source : ExpenseSource
  fileName : String
  source_file_checksum : String
  created : Nat
  skipped : Nat
  updated : Nat
  errors : List String
  started_at : String
  finished_at : Option String
deriving DecidableEq

/-- Result of one upsert (`UpsertResult.action`). -/
inductive UpsertAction where
  | created | skipped | updated | marked_duplicate
deriving DecidableEq

/-- Result of one upsert (`UpsertResult`). -/
structure UpsertResult where
  action : UpsertAction
  id : String
deriving DecidableEq

/-! ## The document store (the Firestore `expenses` collection)

A document as stored can carry the two duplicate-marking fields that
`upsertExpense` spreads onto the expense.  Whether each field is present
mirrors which branch wrote the document. -/

/-- One stored expense document: the `CanonicalExpense` field values plus
    the optional `_duplicateOf` / `_isDuplicate` extras. -/
structure StoredDoc where
  fields : CanonicalExpense
  dupOf : Option String := none
  isDup : Bool := false
deriving DecidableEq

/-- The `expenses` collection: an association list keyed by document id.
    Construction keeps keys unique (`setDoc` overwrites in place or
    appends). -/
abbrev Store : Type := List (String × StoredDoc)

/-- Point read by key (Firestore `tx.get`): first entry with the key. -/
def getDoc : Store → String → Option StoredDoc
  | [], _ => none
  | (k, v) :: rest, key => if k = key then some v else getDoc rest key

/-- Point write by key (Firestore `tx.set`): overwrite in place, or
    append when the key is absent. -/
def setDoc : Store → String → StoredDoc → Store
  | [], key, v => [(key, v)]
  | (k, w) :: rest, key, v =>
    if k = key then (key, v) :: rest else (k, w) :: setDoc rest key v

/-- Number of documents stored under a given key (1 or 0 once the store
    is built by `setDoc` from `[]`). -/
def countKey : Store → String → Nat
  | [], _ => 0
  | (a, _) :: rest, key => (if a = key then 1 else 0) + countKey rest key

/-- Number of documents in the collection. -/
def storeSize (s : Store) : Nat := List.length s

/-! ## `upsertExpense` (src/services/firestoreService.ts lines 51–90)

The whole body runs inside one `runTransaction`, so the
read-then-branch-then-write below is a single atomic step on the store;
a concurrent pair of upserts is therefore one of the two serial orders.

`freshId` stands for the auto-generated id of
`doc(collection(db, EXPENSES_COLLECTION))` (used only by the
`mark_duplicate` branch) and `now` for `new Date().toISOString()`. -/

/-- The document key selection of `upsertExpense` line 56:
    `expense.source_transaction_id ?? expense.fingerprint`.
    `??` falls through only on `null`/`undefined` (`none`); an
    empty-string id is kept. -/
def upsertDocId (expense : CanonicalExpense) : String :=
  expense.source_transaction_id.getD expense.fingerprint

/-- Model of `upsertExpense(expense, policy)` as one atomic transaction. -/
def upsertExpense (expense : CanonicalExpense) (policy : DuplicatePolicy)
    (freshId now : String) (s : Store) : UpsertResult × Store :=
  let docId := upsertDocId expense
  match getDoc s docId with
  | some existing =>
    match policy with
    | DuplicatePolicy.update =>
      -- tx.update(docRef, { ...expense, updated_at: now }) merges every
      -- expense field (including `id`) into the existing document and
      -- leaves fields absent from the patch (the duplicate markers) alone.
      ({ action := UpsertAction.updated, id := docId },
        setDoc s docId
          { fields := { expense with updated_at := now },
            dupOf := existing.dupOf, isDup := existing.isDup })
    | DuplicatePolicy.mark_duplicate =>
      -- tx.set(dupRef, { ...expense, _duplicateOf: docId, _isDuplicate: true,
      --                  updated_at: now })
      ({ action := UpsertAction.marked_duplicate, id := freshId },
        setDoc s freshId
          { fields := { expense with updated_at := now },
            dupOf := some docId, isDup := true })
    | DuplicatePolicy.skip =>
      -- default: no write; `existing.id` is the snapshot id, i.e. docId
      ({ action := UpsertAction.skipped, id := docId }, s)
  | none =>
    -- tx.set(docRef, { ...expense, id: docId })
    ({ action := UpsertAction.created, id := docId },
      setDoc s docId { fields := { expense with id := docId } })

/-! ## Job store and `shortCircuitIfAlreadyProcessed`
(src/services/firestoreService.ts lines 169–181) -/

/-- Model of `createJob` / the `importJobs` collection: `setDoc` keyed by jobId. -/
def setJob : List ImportJob → ImportJob → List ImportJob
  | [], j => [j]
  | k :: rest, j => if k.jobId = j.jobId then j :: rest else k :: setJob rest j

/-- Model of `shortCircuitIfAlreadyProcessed(checksum)`: query the jobs collection
    for matching checksum and completed status,
    returning the first document of the result set (`snap.docs[0]`). -/
def shortCircuitIfAlreadyProcessed (jobs : List ImportJob) (checksum : String) :
    Option ImportJob :=
  (jobs.filter (fun j =>
    j.source_file_checksum = checksum ∧ j.status = "completed")).head?

/-! ## `normalizeDate` / `normalizeVendor` / `normalizeRecord`
(src/utils/deduplication.ts lines 19–99) -/

/-- Separator class `[\s\-\/]` of the long date regex. -/
def dateSepChar (c : Char) : Bool := jsWhitespaceChar c ∨ c = '-' ∨ c = '/'

/-- Anchored match `^(\d{1,2})[\s\-\/]([A-Za-z]{3,})[\s\-\/](\d{4})$`:
    day digits, month word, year digits. -/
def longDateMatch (l : List Char) : Option (List Char × List Char × List Char) :=
  let (ds, r1) := digitSpan l
  if ds = [] ∨ ds.length > 2 then none else
  match r1 with
  | s1 :: r2 =>
    if dateSepChar s1 then
      let (ls, r3) := r2.span Char.isAlpha
      if ls.length < 3 then none else
      match r3 with
      | s2 :: r4 =>
        if dateSepChar s2 then
          let (ys, r5) := digitSpan r4
          if ys.length = 4 ∧ r5 = [] then some (ds, ls, ys) else none
        else none
      | [] => none
    else none
  | [] => none

/-- Anchored match `^(\d{1,2})[\/\-](\d{1,2})[\/\-](\d{4})$`. -/
def slashDateMatch (l : List Char) : Option (List Char × List Char × List Char) :=
  let (ds, r1) := digitSpan l
  if ds = [] ∨ ds.length > 2 then none else
  match r1 with
  | s1 :: r2 =>
    if s1 = '/' ∨ s1 = '-' then
      let (ms, r3) := digitSpan r2
      if ms = [] ∨ ms.length > 2 then none else
      match r3 with
      | s2 :: r4 =>
        if s2 = '/' ∨ s2 = '-' then
          let (ys, r5) := digitSpan r4
          if ys.length = 4 ∧ r5 = [] then some (ds, ms, ys) else none
        else none
      | [] => none
    else none
  | [] => none

/-- Anchored check `^\d{4}-\d{2}-\d{2}$`. -/
def isoDateCheck (l : List Char) : Bool :=
  match l with
  | [y1, y2, y3, y4, h1, m1, m2, h2, d1, d2] =>
    y1.isDigit ∧ y2.isDigit ∧ y3.isDigit ∧ y4.isDigit ∧ h1 = '-' ∧
    m1.isDigit ∧ m2.isDigit ∧ h2 = '-' ∧ d1.isDigit ∧ d2.isDigit
  | _ => false

/-- The fixed 12-entry month table, keyed by lowercase 3-letter name. -/
def monthNames : List (List Char × List Char) :=
  [("jan".data, "01".data), ("feb".data, "02".data), ("mar".data, "03".data),
   ("apr".data, "04".data), ("may".data, "05".data), ("jun".data, "06".data),
   ("jul".data, "07".data), ("aug".data, "08".data), ("sep".data, "09".data),
   ("oct".data, "10".data), ("nov".data, "11".data), ("dec".data, "12".data)]

/-- Model of `String.prototype.padStart(2, '0')`. -/
def padStart2 (l : List Char) : List Char :=
  if l.length ≥ 2 then l else List.replicate (2 - l.length) '0' ++ l

/-- The numeric-format fallback of `normalizeDate` (lines 39–49):
    `DD/MM/YYYY` or `DD-MM-YYYY`, else the trimmed input unchanged
    (with a logged warning, which has no observable effect here). -/
def normalizeDateNumeric (trimmed : List Char) : String :=
  match slashDateMatch trimmed with
  | some (ds, ms, ys) => String.mk (ys ++ '-' :: (padStart2 ms ++ '-' :: padStart2 ds))
  | none => String.mk trimmed

/-- Model of `normalizeDate(rawDate)` from src/utils/deduplication.ts. -/
def normalizeDate (rawDate : String) : String :=
  let trimmed := jsTrimList rawDate.data
  if isoDateCheck trimmed then String.mk trimmed
  else
    match longDateMatch trimmed with
    | some (ds, ls, _ys) =>
      match List.lookup (asciiLowerList (ls.take 3)) monthNames with
      | some m =>
        match longDateMatch trimmed with
        | some (_, _, ys) => String.mk (ys ++ '-' :: (m ++ '-' :: padStart2 ds))
        | none => normalizeDateNumeric trimmed
      | none => normalizeDateNumeric trimmed
    | none => normalizeDateNumeric trimmed

/-- Global replace `\s+` → one space. -/
def collapseWs : List Char → List Char
  | [] => []
  | c :: rest =>
    if jsWhitespaceChar c then
      match rest with
      | d :: _ => if jsWhitespaceChar d then collapseWs rest else ' ' :: collapseWs rest
      | [] => [' ']
    else c :: collapseWs rest

/-- Model of `normalizeVendor(rawVendor)`: uppercase, trim, strip `[^A-Z0-9 ]`,
    collapse whitespace runs, trim. -/
def normalizeVendor (rawVendor : String) : String :=
  let step1 := jsTrimList (asciiUpperList rawVendor.data)
  let step2 := step1.filter
    (fun c => ('A' ≤ c ∧ c ≤ 'Z') ∨ ('0' ≤ c ∧ c ≤ '9') ∨ c = ' ')
  String.mk (jsTrimList (collapseWs step2))

/-- Output shape of `normalizeRecord`. -/
structure NormalizedFields where
  date : String
  amount : ℚ
  vendor : String
  transactionType : String
deriving DecidableEq

/-- Model of `normalizeRecord(raw)`: the three normalizers plus uppercase-trim of
    the transaction type (`(raw.transactionType ?? '').toUpperCase().trim()`). -/
def normalizeRecord (raw : RawTransaction) : NormalizedFields :=
  { date := normalizeDate raw.date,
    amount := normalizeAmount raw.amount,
    vendor := normalizeVendor raw.vendor,
    transactionType :=
      String.mk (jsTrimList (asciiUpperList (raw.transactionType.getD "").data)) }

/-! ## SHA-256 (the `CryptoJS.SHA256` collaborator), FIPS 180-4 -/

/-- Rotate right on 32 bits (`0 < n < 32`, `w < 2^32`). -/
def rotr32 (n w : Nat) : Nat := w / 2 ^ n + w % 2 ^ n * 2 ^ (32 - n)

/-- SHA-256 Σ₀. -/
def bigSigma0 (x : Nat) : Nat := rotr32 2 x ^^^ rotr32 13 x ^^^ rotr32 22 x

/-- SHA-256 Σ₁. -/
def bigSigma1 (x : Nat) : Nat := rotr32 6 x ^^^ rotr32 11 x ^^^ rotr32 25 x

/-- SHA-256 σ₀. -/
def smallSigma0 (x : Nat) : Nat := rotr32 7 x ^^^ rotr32 18 x ^^^ x / 2 ^ 3

/-- SHA-256 σ₁. -/
def smallSigma1 (x : Nat) : Nat := rotr32 17 x ^^^ rotr32 19 x ^^^ x / 2 ^ 10

/-- SHA-256 Ch(x,y,z) (¬x as xor with the 32-bit mask). -/
def chF (x y z : Nat) : Nat := x &&& y ^^^ (x ^^^ 0xffffffff) &&& z

/-- SHA-256 Maj(x,y,z). -/
def majF (x y z : Nat) : Nat := x &&& y ^^^ x &&& z ^^^ y &&& z

/-- The eight 32-bit working variables. -/
structure SHAState where
  a : Nat
  b : Nat
  c : Nat
  d : Nat
  e : Nat
  f : Nat
  g : Nat
  h : Nat
deriving DecidableEq

/-- SHA-256 initial hash value. -/
def shaInit : SHAState :=
  ⟨1779033703, 3144134277, 1013904242, 2773480762,
   1359893119, 2600822924, 528734635, 1541459225⟩

/-- The 64 SHA-256 round constants. -/
def shaK : List Nat :=
  [1116352408, 1899447441, 3049323471, 3921009573, 961987163, 1508970993,
   2453635748, 2870763221, 3624381080, 310598401, 607225278, 1426881987,
   1925078388, 2162078206, 2614888103, 3248222580, 3835390401, 4022224774,
   264347078, 604807628, 770255983, 1249150122, 1555081692, 1996064986,
   2554220882, 2821834349, 2952996808, 3210313671, 3336571891, 3584528711,
   113926993, 338241895, 666307205, 773529912, 1294757372, 1396182291,
   1695183700, 1986661051, 2177026350, 2456956037, 2730485921, 2820302411,
   3259730800, 3345764771, 3516065817, 3600352804, 4094571909, 275423344,
   430227734, 506948616, 659060556, 883997877, 958139571, 1322822218,
   1537002063, 1747873779, 1955562222, 2024104815, 2227730452, 2361852424,
   2428436474, 2756734187, 3204031479, 3329325298]

/-- One SHA-256 round, with `kw = (K[i] + W[i]) mod 2^32`. -/
def shaRound (st : SHAState) (kw : Nat) : SHAState :=
  let t1 := (st.h + bigSigma1 st.e + chF st.e st.f st.g + kw) % 2 ^ 32
  let t2 := (bigSigma0 st.a + majF st.a st.b st.c) % 2 ^ 32
  ⟨(t1 + t2) % 2 ^ 32, st.a, st.b, st.c, (st.d + t1) % 2 ^ 32, st.e, st.f, st.g⟩

/-- Message-schedule extension; `acc` holds the words produced so far,
    newest first. -/
def scheduleRec : Nat → List Nat → List Nat
  | 0, acc => acc
  | n + 1, acc =>
    let w2 := acc.getD 1 0
    let w7 := acc.getD 6 0
    let w15 := acc.getD 14 0
    let w16 := acc.getD 15 0
    scheduleRec n (((smallSigma1 w2 + w7 + smallSigma0 w15 + w16) % 2 ^ 32) :: acc)

/-- Extend 16 message words to the 64-entry schedule. -/
def schedule (ws : List Nat) : List Nat := (scheduleRec 48 ws.reverse).reverse

/-- Compress one 16-word chunk into the running hash. -/
def compressChunk (st : SHAState) (ws16 : List Nat) : SHAState :=
  let res := ((shaK.zip (schedule ws16)).foldl
    (fun s kw => shaRound s ((kw.1 + kw.2) % 2 ^ 32)) st)
  ⟨(st.a + res.a) % 2 ^ 32, (st.b + res.b) % 2 ^ 32, (st.c + res.c) % 2 ^ 32,
   (st.d + res.d) % 2 ^ 32, (st.e + res.e) % 2 ^ 32, (st.f + res.f) % 2 ^ 32,
   (st.g + res.g) % 2 ^ 32, (st.h + res.h) % 2 ^ 32⟩

/-- Big-endian bytes → 32-bit words. -/
def wordsOf : List Nat → List Nat
  | b0 :: b1 :: b2 :: b3 :: rest =>
    (((b0 * 256 + b1) * 256 + b2) * 256 + b3) :: wordsOf rest
  | _ => []

/-- Split a word list into 16-word chunks. -/
def chunks16 : List Nat → List (List Nat)
  | w0 :: w1 :: w2 :: w3 :: w4 :: w5 :: w6 :: w7 ::
    w8 :: w9 :: w10 :: w11 :: w12 :: w13 :: w14 :: w15 :: rest =>
    [w0, w1, w2, w3, w4, w5, w6, w7, w8, w9, w10, w11, w12, w13, w14, w15] ::
      chunks16 rest
  | _ => []

/-- The 8-byte big-endian length block. -/
def lenBytes8 (n : Nat) : List Nat :=
  [n / 2 ^ 56 % 256, n / 2 ^ 48 % 256, n / 2 ^ 40 % 256, n / 2 ^ 32 % 256,
   n / 2 ^ 24 % 256, n / 2 ^ 16 % 256, n / 2 ^ 8 % 256, n % 256]

/-- SHA-256 padding: `0x80`, zeros to 56 mod 64, bit length. -/
def sha256Pad (msg : List Nat) : List Nat :=
  msg ++ 0x80 :: (List.replicate ((64 - (msg.length + 9) % 64) % 64) 0 ++
    lenBytes8 (8 * msg.length))

/-- SHA-256 of a byte list, as the final eight words. -/
def sha256Words (msg : List Nat) : SHAState :=
  (chunks16 (wordsOf (sha256Pad msg))).foldl compressChunk shaInit

/-- The sixteen lowercase hex digits. -/
def lowHexList : List Char := "0123456789abcdef".data

/-- Lowercase hex digit of `n mod 16`. -/
def hexCharOf (n : Nat) : Char := lowHexList.getD (n % 16) '0'

/-- A 32-bit word as 8 lowercase hex characters. -/
def wordHex (w : Nat) : List Char :=
  (List.range 8).map (fun i => hexCharOf (w / 16 ^ (7 - i)))

/-- The eight hash words in output order. -/
def shaStateWords (st : SHAState) : List Nat :=
  [st.a, st.b, st.c, st.d, st.e, st.f, st.g, st.h]

/-- SHA-256 rendered as 64 lowercase hex characters
    (`CryptoJS.SHA256(payload).toString(CryptoJS.enc.Hex)`). -/
def sha256Hex (msg : List Nat) : String :=
  String.mk ((shaStateWords (sha256Words msg)).flatMap wordHex)

/-- UTF-8 encoding of one character. -/
def utf8EncodeCharNat (c : Char) : List Nat :=
  let n := c.toNat
  if n < 0x80 then [n]
  else if n < 0x800 then [0xc0 + n / 64, 0x80 + n % 64]
  else if n < 0x10000 then
    [0xe0 + n / 4096, 0x80 + n / 64 % 64, 0x80 + n % 64]
  else
    [0xf0 + n / 262144, 0x80 + n / 4096 % 64, 0x80 + n / 64 % 64, 0x80 + n % 64]

/-- UTF-8 bytes of a string. -/
def utf8Bytes (s : String) : List Nat := s.data.flatMap utf8EncodeCharNat

/-! ## `toFixed(2)` and the fingerprinter
(src/utils/deduplication.ts lines 107–127) -/

/-- ECMAScript `Number.prototype.toFixed(2)` in exact arithmetic:
    split off the sign, pick the integer `n` closest to `|x|·100` with
    ties to the larger `n`, render with two fractional digits. -/
def toFixed2 (x : ℚ) : String :=
  let n : Nat := (⌊|x| * 100 + 1 / 2⌋).toNat
  let s := toString (n / 100) ++ "." ++
    (if n % 100 < 10 then "0" else "") ++ toString (n % 100)
  if x < 0 then "-" ++ s else s

/-- Model of `computeFingerprint(date, amount, vendor, transactionType = '')`:
    SHA-256 over the UTF-8 bytes of
    `date + '|' + amount.toFixed(2) + '|' + vendor + '|' +
     transactionType.toUpperCase().trim()`, rendered as lowercase hex. -/
def computeFingerprint (date : String) (amount : ℚ) (vendor : String)
    (transactionType : String := "") : String :=
  let payload := date ++ "|" ++ toFixed2 amount ++ "|" ++ vendor ++ "|" ++
    String.mk (jsTrimList (asciiUpperList transactionType.data))
  sha256Hex (utf8Bytes payload)

/-- Model of `computeFileChecksum(file)`: SHA-256 of the raw bytes, prefixed. -/
def computeFileChecksum (bytes : List Nat) : String :=
  "sha256:" ++ sha256Hex bytes

/-! ## Shared parser machinery (src/parsers/)

Each JavaScript regex used by the parsers is implemented as an explicit
scanner with the same semantics.  Searches advance one character on a
failed attempt and past the whole match on success (non-overlapping
global scans); greedy runs are maximal runs, which is exact here because
every quantified class is disjoint from the character that must follow
it. -/

/-- JS `String.prototype.includes` on character lists. -/
def containsSub : List Char → List Char → Bool
  | [], pat => pat.isEmpty
  | c :: rest, pat => pat.isPrefixOf (c :: rest) || containsSub rest pat

/-- Model of the JS newline split `split('\n')`. -/
def splitOnNl : List Char → List (List Char)
  | [] => [[]]
  | c :: rest =>
    if c = '\n' then [] :: splitOnNl rest
    else
      match splitOnNl rest with
      | [] => [[c]]
      | l :: ls => (c :: l) :: ls

/-- The line preparation every parser performs:
    `split('\n').map(trim).filter(length > 0)`. -/
def prepLines (pdfText : String) : List (List Char) :=
  ((splitOnNl pdfText.data).map jsTrimList).filter (fun l => ¬ l.isEmpty)

/-- Case-insensitive prefix test, pattern given in lowercase. -/
def ciStarts : List Char → List Char → Bool
  | [], _ => true
  | _ :: _, [] => false
  | p :: ps, c :: cs => p = c.toLower ∧ ciStarts ps cs

/-- The class `[\d,]` of the bank amount regexes. -/
def amountCommaChar (c : Char) : Bool := c.isDigit ∨ c = ','

/-- Match attempt for `([\d,]+\.\d{2})` at the current position:
    maximal digit/comma run, a dot, exactly two digits. -/
def amountTokenAt (l : List Char) : Option (List Char × List Char) :=
  let (run, r1) := l.span amountCommaChar
  if run.isEmpty then none else
  match r1 with
  | '.' :: x :: y :: r2 =>
    if x.isDigit ∧ y.isDigit then some (run ++ '.' :: [x, y], r2) else none
  | _ => none

/-- Model of `[...line.matchAll(/([\d,]+\.\d{2})/g)]`. -/
def scanAmountTokens : Nat → List Char → List (List Char)
  | 0, _ => []
  | _, [] => []
  | fuel + 1, c :: rest =>
    match amountTokenAt (c :: rest) with
    | some (tok, r) => tok :: scanAmountTokens fuel r
    | none => scanAmountTokens fuel rest

/-- Model of `line.replace(/([\d,]+\.\d{2})/g, '')`. -/
def removeAmountTokens : Nat → List Char → List Char
  | 0, l => l
  | _, [] => []
  | fuel + 1, c :: rest =>
    match amountTokenAt (c :: rest) with
    | some (_, r) => removeAmountTokens fuel r
    | none => c :: removeAmountTokens fuel rest

/-- Model of `line.replace(/\d{k,}/g, '')`: remove maximal digit runs of length
    at least `k`. -/
def removeDigitRuns (k : Nat) : Nat → List Char → List Char
  | 0, l => l
  | _, [] => []
  | fuel + 1, c :: rest =>
    let (run, r) := digitSpan (c :: rest)
    if k ≤ run.length then removeDigitRuns k fuel r
    else c :: removeDigitRuns k fuel rest

/-- The keyword test `/credit|deposit|received|salary|inward/i` shared by
    the Axis and HDFC parsers. -/
def hasCreditKeyword (narr : List Char) : Bool :=
  ["credit".data, "deposit".data, "received".data, "salary".data,
   "inward".data].any (fun kw => containsSub (asciiLowerList narr) kw)

/-! ## Axis Bank parser (src/parsers/axisBankParser.ts) -/

/-- Model of `AxisBankParser.HEADER_KEYWORDS`. -/
def axisHeaderKeywords : List (List Char) :=
  ["tran date".data, "withdrawal".data, "deposit".data, "balance".data,
   "chq".data, "ref.no".data, "particulars".data]

/-- Model of `HEADER_KEYWORDS.some(kw => line.toLowerCase().includes(kw))`. -/
def axisIsHeader (line : List Char) : Bool :=
  axisHeaderKeywords.any (fun kw => containsSub (asciiLowerList line) kw)

/-- Model of `/^[-=*]+$/.test(line)`. -/
def axisIsSeparator (line : List Char) : Bool :=
  ¬ line.isEmpty ∧ line.all (fun c => c = '-' ∨ c = '=' ∨ c = '*')

/-- Anchored match `^(\d{2}[-\/]\d{2}[-\/]\d{4})`: ten characters. -/
def axisDateAt (l : List Char) : Option (List Char × List Char) :=
  match l with
  | a :: b :: s :: c :: d :: t :: e :: f :: g :: h :: rest =>
    if a.isDigit ∧ b.isDigit ∧ (s = '-' ∨ s = '/') ∧ c.isDigit ∧ d.isDigit ∧
       (t = '-' ∨ t = '/') ∧ e.isDigit ∧ f.isDigit ∧ g.isDigit ∧ h.isDigit
    then some ([a, b, s, c, d, t, e, f, g, h], rest) else none
  | _ => none

/-- Model of `line.replace(DATE_REGEX, '')` (anchored, non-global). -/
def axisStripDate (line : List Char) : List Char :=
  match axisDateAt line with
  | some (_, rest) => rest
  | none => line

/-- One iteration of the `AxisBankParser.parse` loop body. -/
def AxisBankParser.parseLine (line : List Char) : Option RawTransaction :=
  if axisIsHeader line ∨ axisIsSeparator line then none else
  match axisDateAt line with
  | none => none
  | some (dateCs, _) =>
    let amounts := scanAmountTokens line.length line
    let amountCs := amounts.headD ['0']
    let l1 := axisStripDate line
    let l2 := removeAmountTokens l1.length l1
    let narr := jsTrimList (removeDigitRuns 6 l2.length l2)
    let vendorCs := if narr.isEmpty then "UNKNOWN".data else narr
    let ttype := if hasCreditKeyword narr then "CREDIT" else "DEBIT"
    if ¬ amountCs.isEmpty ∧ amountCs ≠ ['0'] then
      some { date := ⟨dateCs⟩, amount := ⟨amountCs⟩, vendor := ⟨vendorCs⟩,
             transactionType := some ttype,
             status := some TransactionStatus.completed,
             rawFields := [("date", ⟨dateCs⟩), ("amount", ⟨amountCs⟩),
                           ("vendor", ⟨vendorCs⟩), ("line", ⟨line⟩)] }
    else none

/-- Model of `AxisBankParser.parse(pdfText)`. -/
def AxisBankParser.parse (pdfText : String) : List RawTransaction :=
  (prepLines pdfText).filterMap AxisBankParser.parseLine

/-! ## HDFC Bank parser (src/parsers/hdfcBankParser.ts) -/

/-- Model of `HDFCBankParser.HEADER_KEYWORDS`, tested with `startsWith`. -/
def hdfcIsHeader (line : List Char) : Bool :=
  ["date".data, "narration".data, "chq".data, "withdrawal".data,
   "deposit".data, "closing".data, "balance".data, "value date".data].any
    (fun kw => kw.isPrefixOf (asciiLowerList line))

/-- Model of `/^[-=*\s]+$/.test(line)`. -/
def hdfcIsSeparator (line : List Char) : Bool :=
  ¬ line.isEmpty ∧
    line.all (fun c => c = '-' ∨ c = '=' ∨ c = '*' ∨ jsWhitespaceChar c)

/-- Anchored match `^(\d{2}\/\d{2}\/\d{2,4})`; the year run is greedy up
    to four digits and needs at least two. -/
def hdfcDateAt (l : List Char) : Option (List Char × List Char) :=
  match l with
  | a :: b :: s :: c :: d :: t :: rest =>
    if a.isDigit ∧ b.isDigit ∧ s = '/' ∧ c.isDigit ∧ d.isDigit ∧ t = '/' then
      let (ys, r) := digitSpan rest
      if ys.length ≥ 2 then
        some ([a, b, s, c, d, t] ++ ys.take (min 4 ys.length),
              ys.drop (min 4 ys.length) ++ r)
      else none
    else none
  | _ => none

/-- Model of `date.replace(/(\d{2})\/(\d{2})\/(\d{2})$/, ...)`: expand a two-digit
    year, `≤ 50 → 20xx`, `> 50 → 19xx`. -/
def expandYearL (d : List Char) : List Char :=
  if d.length ≥ 8 then
    match d.drop (d.length - 8) with
    | [a, b, s, c, e, t, y1, y2] =>
      if a.isDigit ∧ b.isDigit ∧ s = '/' ∧ c.isDigit ∧ e.isDigit ∧ t = '/' ∧
         y1.isDigit ∧ y2.isDigit then
        d.take (d.length - 8) ++ [a, b, s, c, e, t] ++
          (if digitsToNat [y1, y2] ≤ 50 then '2' :: '0' :: [y1, y2]
           else '1' :: '9' :: [y1, y2])
      else d
    | _ => d
  else d

/-- Model of `line.replace(DATE_REGEX, '')` for the HDFC date regex. -/
def hdfcStripDate (line : List Char) : List Char :=
  match hdfcDateAt line with
  | some (_, rest) => rest
  | none => line

/-- Match attempt for `UPI[\/\-]([^\/]+)\/([^\/]+)\/?(.*)?/i` at the
    current position, returning groups 1 and 2. -/
def upiNarrAt (l : List Char) : Option (List Char × List Char) :=
  match l with
  | u :: p :: i :: s :: rest =>
    if u.toLower = 'u' ∧ p.toLower = 'p' ∧ i.toLower = 'i' ∧
       (s = '/' ∨ s = '-') then
      let (g1, r1) := rest.span (fun c => c ≠ '/')
      if g1.isEmpty then none else
      match r1 with
      | '/' :: r2 =>
        let (g2, _) := r2.span (fun c => c ≠ '/')
        if g2.isEmpty then none else some (g1, g2)
      | _ => none
    else none
  | _ => none

/-- Leftmost search for the UPI narration pattern. -/
def upiNarrSearch : Nat → List Char → Option (List Char × List Char)
  | 0, _ => none
  | _, [] => none
  | fuel + 1, c :: rest =>
    match upiNarrAt (c :: rest) with
    | some g => some g
    | none => upiNarrSearch fuel rest

/-- One iteration of the `HDFCBankParser.parse` loop body. -/
def HDFCBankParser.parseLine (line : List Char) : Option RawTransaction :=
  if hdfcIsHeader line ∨ hdfcIsSeparator line then none else
  match hdfcDateAt line with
  | none => none
  | some (dateCs, _) =>
    let date := expandYearL dateCs
    let amounts := scanAmountTokens line.length line
    let amountCs := amounts.headD ['0']
    let l1 := hdfcStripDate line
    let l2 := removeAmountTokens l1.length l1
    let narrationRaw := jsTrimList (removeDigitRuns 6 l2.length l2)
    let vendorTid : List Char × Option String :=
      match upiNarrSearch narrationRaw.length narrationRaw with
      | some (g1, g2) =>
        let v := jsTrimList g1
        (if v.isEmpty then narrationRaw else v, some ⟨jsTrimList g2⟩)
      | none => (narrationRaw, none)
    let ttype := if hasCreditKeyword narrationRaw then "CREDIT" else "DEBIT"
    if ¬ amountCs.isEmpty ∧ amountCs ≠ ['0'] ∧ ¬ vendorTid.1.isEmpty then
      some { sourceTransactionId := vendorTid.2,
             date := ⟨date⟩, amount := ⟨amountCs⟩, vendor := ⟨vendorTid.1⟩,
             transactionType := some ttype,
             status := some TransactionStatus.completed,
             rawFields := [("date", ⟨date⟩), ("amount", ⟨amountCs⟩),
                           ("vendor", ⟨narrationRaw⟩)] }
    else none

/-- Model of `HDFCBankParser.parse(pdfText)`. -/
def HDFCBankParser.parse (pdfText : String) : List RawTransaction :=
  (prepLines pdfText).filterMap HDFCBankParser.parseLine

/-! ## PayZapp parser (src/parsers/payZapParser.ts) -/

/-- Model of `PayZapParser.HEADER_KEYWORDS`, tested with `startsWith`. -/
def payzapIsHeader (line : List Char) : Bool :=
  ["date".data, "description".data, "amount".data, "transaction".data,
   "type".data, "balance".data].any
    (fun kw => kw.isPrefixOf (asciiLowerList line))

/-- The class `[\s\-]` of the PayZapp date regex. -/
def singleSepChar (c : Char) : Bool := jsWhitespaceChar c ∨ c = '-'

/-- Match attempt for `(\d{1,2}[\s\-][A-Za-z]{3,}[\s\-]\d{4})` at the
    current position. -/
def payzapDateAt (l : List Char) : Option (List Char × List Char) :=
  let (ds, r1) := l.span Char.isDigit
  if ds.isEmpty ∨ ds.length > 2 then none else
  match r1 with
  | s1 :: r2 =>
    if singleSepChar s1 then
      let (ls, r3) := r2.span Char.isAlpha
      if ls.length < 3 then none else
      match r3 with
      | s2 :: r4 =>
        if singleSepChar s2 then
          match r4 with
          | y1 :: y2 :: y3 :: y4 :: r5 =>
            if y1.isDigit ∧ y2.isDigit ∧ y3.isDigit ∧ y4.isDigit then
              some (ds ++ s1 :: (ls ++ s2 :: [y1, y2, y3, y4]), r5)
            else none
          | _ => none
        else none
      | [] => none
    else none
  | [] => none

/-- Leftmost search for the PayZapp date; returns
    `(before, match, rest)` so the same function serves `match` and
    `replace`. -/
def payzapDateSearch : Nat → List Char → List Char →
    Option (List Char × List Char × List Char)
  | 0, _, _ => none
  | fuel + 1, bRev, l =>
    match payzapDateAt l with
    | some (m, rest) => some (bRev.reverse, m, rest)
    | none =>
      match l with
      | [] => none
      | c :: rest => payzapDateSearch fuel (c :: bRev) rest

/-- The numeric tail `([\d,]+(?:\.\d{1,2})?)` of the two `₹`/`INR`
    amount regexes: maximal digit/comma run, then an optional dot with
    one or two digits (greedy). -/
def ppAmountNum (l : List Char) : Option (List Char × List Char) :=
  let (run, r1) := l.span amountCommaChar
  if run.isEmpty then none else
  match r1 with
  | '.' :: x :: y :: r2 =>
    if x.isDigit then
      if y.isDigit then some (run ++ '.' :: [x, y], r2)
      else some (run ++ ['.', x], y :: r2)
    else some (run, '.' :: x :: y :: r2)
  | '.' :: x :: r2 =>
    if x.isDigit then some (run ++ ['.', x], r2) else some (run, '.' :: x :: r2)
  | _ => some (run, r1)

/-- Match attempt for `(?:INR|₹)\s*([\d,]+(?:\.\d{1,2})?)/i` at the
    current position, returning `(group 1, rest after the whole match)`. -/
def payzapAmountAt (l : List Char) : Option (List Char × List Char) :=
  match l with
  | '₹' :: rest => ppAmountNum (rest.dropWhile jsWhitespaceChar)
  | i :: n :: r :: rest =>
    if i.toLower = 'i' ∧ n.toLower = 'n' ∧ r.toLower = 'r' then
      ppAmountNum (rest.dropWhile jsWhitespaceChar)
    else none
  | _ => none

/-- Leftmost search for the PayZapp amount; `(before, group, rest)`. -/
def payzapAmountSearch : Nat → List Char → List Char →
    Option (List Char × List Char × List Char)
  | 0, _, _ => none
  | fuel + 1, bRev, l =>
    match payzapAmountAt l with
    | some (g, rest) => some (bRev.reverse, g, rest)
    | none =>
      match l with
      | [] => none
      | c :: rest => payzapAmountSearch fuel (c :: bRev) rest

/-- JS `\w` (word character) for `\b` boundaries. -/
def wordChar (c : Char) : Bool := c.isAlpha ∨ c.isDigit ∨ c = '_'

/-- Match attempt for `\b(Dr|Cr)\b/i` given the previous character. -/
def payzapTypeAt (prev : Option Char) (l : List Char) :
    Option (List Char × List Char) :=
  match l with
  | a :: b :: rest =>
    if (a.toLower = 'd' ∨ a.toLower = 'c') ∧ b.toLower = 'r' ∧
       prev.all (fun p => ¬ wordChar p) ∧
       rest.head?.all (fun r => ¬ wordChar r) then
      some ([a, b], rest)
    else none
  | _ => none

/-- Leftmost search for `\b(Dr|Cr)\b/i`; `(before, group, rest)`. -/
def payzapTypeSearch : Nat → Option Char → List Char → List Char →
    Option (List Char × List Char × List Char)
  | 0, _, _, _ => none
  | fuel + 1, prev, bRev, l =>
    match payzapTypeAt prev l with
    | some (m, rest) => some (bRev.reverse, m, rest)
    | none =>
      match l with
      | [] => none
      | c :: rest => payzapTypeSearch fuel (some c) (c :: bRev) rest

/-- Model of `line.replace(DATE_REGEX, '')` (non-global). -/
def payzapStripDate (line : List Char) : List Char :=
  match payzapDateSearch (line.length + 1) [] line with
  | some (before, _, rest) => before ++ rest
  | none => line

/-- Model of `x.replace(AMOUNT_REGEX, '')` (non-global; removes the whole match,
    currency marker included). -/
def payzapStripAmount (l : List Char) : List Char :=
  match payzapAmountSearch (l.length + 1) [] l with
  | some (before, _, rest) => before ++ rest
  | none => l

/-- Model of `x.replace(TYPE_REGEX, '')` (non-global). -/
def payzapStripType (l : List Char) : List Char :=
  match payzapTypeSearch (l.length + 1) none [] l with
  | some (before, _, rest) => before ++ rest
  | none => l

/-- The amount-bearing line: the current line when the amount regex
    tests true on it, else the following line when one exists. -/
def payzapAmountLine (line : List Char) (next? : Option (List Char)) :
    List Char :=
  if (payzapAmountSearch (line.length + 1) [] line).isSome then line
  else
    match next? with
    | some nl => nl
    | none => line

/-- Model of `amountMatch ? amountMatch[1] : '0'`. -/
def payzapAmountOf (amountLine : List Char) : List Char :=
  match payzapAmountSearch (amountLine.length + 1) [] amountLine with
  | some (_, g, _) => g
  | none => ['0']

/-- The vendor: the line with date, amount, Dr/Cr marker and 8+-digit
    references stripped and trimmed, `"UNKNOWN"` when empty. -/
def payzapVendorOf (line : List Char) : List Char :=
  let v1 := payzapStripType (payzapStripAmount (payzapStripDate line))
  let narr := jsTrimList (removeDigitRuns 8 v1.length v1)
  if narr.isEmpty then "UNKNOWN".data else narr

/-- The Dr/Cr inference: `CR` → CREDIT, else DEBIT. -/
def payzapTypeOf (line : List Char) : String :=
  match payzapTypeSearch (line.length + 1) none [] line with
  | some (_, g, _) =>
    if asciiUpperList g = "CR".data then "CREDIT" else "DEBIT"
  | none => "DEBIT"

/-- One iteration of the `PayZapParser.parse` loop body; `next?` is
    `lines[i + 1]` when it exists. -/
def PayZapParser.parseLine (line : List Char) (next? : Option (List Char)) :
    Option RawTransaction :=
  if payzapIsHeader line then none else
  match payzapDateSearch (line.length + 1) [] line with
  | none => none
  | some (_, dateCs, _) =>
    let amountCs := payzapAmountOf (payzapAmountLine line next?)
    let vendorCs := payzapVendorOf line
    if ¬ amountCs.isEmpty ∧ amountCs ≠ ['0'] then
      some { date := ⟨dateCs⟩, amount := ⟨amountCs⟩, vendor := ⟨vendorCs⟩,
             transactionType := some (payzapTypeOf line),
             status := some TransactionStatus.completed,
             rawFields := [("date", ⟨dateCs⟩), ("amount", ⟨amountCs⟩),
                           ("vendor", ⟨vendorCs⟩)] }
    else none

/-- The `PayZapParser.parse` loop, carrying the lookahead line. -/
def PayZapParser.loop : List (List Char) → List RawTransaction
  | [] => []
  | l :: rest =>
    match PayZapParser.parseLine l rest.head? with
    | some t => t :: PayZapParser.loop rest
    | none => PayZapParser.loop rest

/-- Model of `PayZapParser.parse(pdfText)`. -/
def PayZapParser.parse (pdfText : String) : List RawTransaction :=
  PayZapParser.loop (prepLines pdfText)

/-! ## PhonePe parser (src/parsers/phonePeParser.ts) -/

/-- Match attempt for `(\d{1,2}\s+[A-Za-z]{3,}\s+\d{4})` at the current
    position. -/
def ppeDateAt (l : List Char) : Option (List Char) :=
  let (ds, r1) := l.span Char.isDigit
  if ds.isEmpty ∨ ds.length > 2 then none else
  let (ws1, r2) := r1.span jsWhitespaceChar
  if ws1.isEmpty then none else
  let (ls, r3) := r2.span Char.isAlpha
  if ls.length < 3 then none else
  let (ws2, r4) := r3.span jsWhitespaceChar
  if ws2.isEmpty then none else
  match r4 with
  | y1 :: y2 :: y3 :: y4 :: _ =>
    if y1.isDigit ∧ y2.isDigit ∧ y3.isDigit ∧ y4.isDigit then
      some (ds ++ ws1 ++ ls ++ ws2 ++ [y1, y2, y3, y4])
    else none
  | _ => none

/-- Model of `line.match(PhonePeParser.DATE_REGEX)`: leftmost match group. -/
def ppeDateSearch : Nat → List Char → Option (List Char)
  | 0, _ => none
  | _, [] => none
  | fuel + 1, c :: rest =>
    match ppeDateAt (c :: rest) with
    | some d => some d
    | none => ppeDateSearch fuel rest

/-- Match attempt for `₹\s*([\d,]+(?:\.\d{1,2})?)` at the current
    position, returning group 1. -/
def ppeAmountAt (l : List Char) : Option (List Char) :=
  match l with
  | '₹' :: rest =>
    match ppAmountNum (rest.dropWhile jsWhitespaceChar) with
    | some (g, _) => some g
    | none => none
  | _ => none

/-- Leftmost search for the PhonePe amount group (`match`/`test`). -/
def ppeAmountSearch : Nat → List Char → Option (List Char)
  | 0, _ => none
  | _, [] => none
  | fuel + 1, c :: rest =>
    match ppeAmountAt (c :: rest) with
    | some g => some g
    | none => ppeAmountSearch fuel rest

/-- The four status words of
    `/(?:Status\s*[:\-]?\s*)?(Completed|Failed|Pending|Reversed)/i`.
    The optional prefix never changes which word the leftmost match
    captures, so the model looks for the leftmost case-insensitive
    occurrence of one of the words and returns it in input casing. -/
def ppeStatusAt (l : List Char) : Option (List Char) :=
  ["completed".data, "failed".data, "pending".data, "reversed".data].findSome?
    (fun w => if ciStarts w l then some (l.take w.length) else none)

/-- Leftmost search for a status word. -/
def ppeStatusSearch : Nat → List Char → Option (List Char)
  | 0, _ => none
  | _, [] => none
  | fuel + 1, c :: rest =>
    match ppeStatusAt (c :: rest) with
    | some s => some s
    | none => ppeStatusSearch fuel rest

/-- Match attempt for
    `UPI\s+transaction\s+ID\s*[:\-]?\s*([A-Za-z0-9]+)/i`, returning
    group 1. -/
def ppeTxnIdAt (l : List Char) : Option (List Char) :=
  if ciStarts "upi".data l then
    let (ws1, r2) := (l.drop 3).span jsWhitespaceChar
    if ws1.isEmpty then none else
    if ciStarts "transaction".data r2 then
      let (ws2, r4) := (r2.drop 11).span jsWhitespaceChar
      if ws2.isEmpty then none else
      if ciStarts "id".data r4 then
        let r5 := (r4.drop 2).dropWhile jsWhitespaceChar
        let r6 :=
          match r5 with
          | ':' :: t => t.dropWhile jsWhitespaceChar
          | '-' :: t => t.dropWhile jsWhitespaceChar
          | _ => r5
        let (idRun, _) := r6.span (fun c => c.isAlpha ∨ c.isDigit)
        if idRun.isEmpty then none else some idRun
      else none
    else none
  else none

/-- Leftmost search for the UPI transaction id group. -/
def ppeTxnIdSearch : Nat → List Char → Option (List Char)
  | 0, _ => none
  | _, [] => none
  | fuel + 1, c :: rest =>
    match ppeTxnIdAt (c :: rest) with
    | some t => some t
    | none => ppeTxnIdSearch fuel rest

/-- Model of `^(Paid|Received|Refund|Sent|Transferred)/i`, alternatives in source
    order. -/
def ppeTypeMatch (l : List Char) : Option (List Char) :=
  ["paid".data, "received".data, "refund".data, "sent".data,
   "transferred".data].findSome?
    (fun w => if ciStarts w l then some (l.take w.length) else none)

/-- Model of `PhonePeParser.mapStatus`. -/
def PhonePeParser.mapStatus (raw : List Char) : TransactionStatus :=
  let lower := asciiLowerList raw
  if lower = "completed".data then TransactionStatus.completed
  else if lower = "pending".data then TransactionStatus.pending
  else if lower = "failed".data then TransactionStatus.failed
  else if lower = "reversed".data then TransactionStatus.reversed
  else TransactionStatus.completed

/-- The backward scan of lines `i-1 … max(0, i-5)` for a date; `prev`
    holds the earlier lines nearest first.  Returns the date group and
    the vendor line (`lines[back-1]`, empty when `back = 0`). -/
def ppeScanBack : List (List Char) → Nat → Option (List Char × List Char)
  | _, 0 => none
  | [], _ => none
  | l :: rest, n + 1 =>
    match ppeDateSearch l.length l with
    | some d => some (d, rest.headD [])
    | none => ppeScanBack rest n

/-- The forward scan of up to four following lines for status,
    transaction id and type; a later match overwrites an earlier one,
    exactly as the source loop reassigns. -/
def ppeScanFwd (ls : List (List Char)) :
    List Char × Option (List Char) × List Char :=
  ls.foldl
    (fun acc l =>
      (match ppeStatusSearch l.length l with
       | some s => s
       | none => acc.1,
       match ppeTxnIdSearch l.length l with
       | some t => some t
       | none => acc.2.1,
       match ppeTypeMatch l with
       | some t => t
       | none => acc.2.2))
    ("Completed".data, none, [])

/-- One step of the PhonePe scan: `prev` are the lines before the
    cursor (nearest first), the head of the second argument is the
    cursor line. -/
def PhonePeParser.go : List (List Char) → List (List Char) →
    List RawTransaction
  | _, [] => []
  | prev, l :: rest =>
    let emitted : Option RawTransaction :=
      if (ppeAmountSearch l.length l).isSome then
        let dv := (ppeScanBack prev 5).getD ([], [])
        let amountCs :=
          match ppeAmountSearch l.length l with
          | some g => g
          | none => ['0']
        let fwd := ppeScanFwd (rest.take 4)
        if ¬ dv.2.isEmpty ∧ ¬ dv.1.isEmpty then
          some { sourceTransactionId := fwd.2.1.map String.mk,
                 date := ⟨dv.1⟩, amount := ⟨amountCs⟩, vendor := ⟨dv.2⟩,
                 transactionType := some ⟨fwd.2.2⟩,
                 status := some (PhonePeParser.mapStatus fwd.1),
                 rawFields := [("date", ⟨dv.1⟩), ("amount", ⟨amountCs⟩),
                               ("vendor", ⟨dv.2⟩), ("status", ⟨fwd.1⟩),
                               ("transactionType", ⟨fwd.2.2⟩)] }
        else none
      else none
    match emitted with
    | some t => t :: PhonePeParser.go (l :: prev) rest
    | none => PhonePeParser.go (l :: prev) rest

/-- Model of `PhonePeParser.parse(pdfText)`. -/
def PhonePeParser.parse (pdfText : String) : List RawTransaction :=
  PhonePeParser.go [] (prepLines pdfText)

/-- Model of `getParser(source)` (src/parsers/parserFactory.ts): total over the
    closed source enumeration; the `default` throw branch is
    unreachable. -/
def getParser : ExpenseSource → String → List RawTransaction
  | ExpenseSource.phonepe => PhonePeParser.parse
  | ExpenseSource.axis => AxisBankParser.parse
  | ExpenseSource.hdfc => HDFCBankParser.parse
  | ExpenseSource.payzap => PayZapParser.parse

/-! ## Import job orchestrator (src/composables/useUpload.ts)

External collaborators are modelled as data: the uploaded file carries
its bytes (hashed by the real `computeFileChecksum` model) and the
outcome of `extractPdfText` (`Except`: a wrong password or corrupt file
is the `error` case).  `uuidv4()` and the `new Date().toISOString()`
calls after the start are environment inputs, as are the auto-generated
ids consumed by `mark_duplicate` upserts.  `parserInvoked` records
whether `parser.parse` was reached. -/

/-- Decidable equality for `Except`, needed to evaluate outcomes. -/
instance exceptDecEq {ε α : Type} [DecidableEq ε] [DecidableEq α] :
    DecidableEq (Except ε α) := fun a b =>
  match a, b with
  | Except.ok x, Except.ok y =>
    if h : x = y then isTrue (by rw [h]) else isFalse (by simp [h])
  | Except.error x, Except.error y =>
    if h : x = y then isTrue (by rw [h]) else isFalse (by simp [h])
  | Except.ok _, Except.error _ => isFalse (by simp)
  | Except.error _, Except.ok _ => isFalse (by simp)

/-- The uploaded file and its extraction outcome. -/
structure FileModel where
  name : String
  bytes : List Nat
  text : Except String String
deriving DecidableEq

/-- Caller-environment inputs of one `upload` call. -/
structure UploadEnv where
  jobId : String
  now : String
  now2 : String
  freshIds : List String
deriving DecidableEq

/-- The persistent state `upload` touches: the `importJobs` and
    `expenses` collections. -/
structure SysState where
  jobs : List ImportJob
  expenses : Store
deriving DecidableEq

/-- Everything observable about one `upload` call. -/
structure UploadOutcome where
  result : Except String ImportJob
  job : Option ImportJob
  jobs : List ImportJob
  expenses : Store
  parserInvoked : Bool
deriving DecidableEq

/-- Building the canonical expense for one row
    (src/composables/useUpload.ts lines 153–180). -/
def buildExpense (raw : RawTransaction) (source : ExpenseSource)
    (checksum now : String) : CanonicalExpense :=
  let normalized := normalizeRecord raw
  let fingerprint := computeFingerprint normalized.date normalized.amount
    normalized.vendor normalized.transactionType
  let docId := raw.sourceTransactionId.getD fingerprint
  { id := docId, fingerprint := fingerprint, source := source,
    source_transaction_id := raw.sourceTransactionId,
    date := normalized.date, amount := normalized.amount,
    currency := "INR", vendor := normalized.vendor,
    category := raw.category,
    status := raw.status.getD TransactionStatus.completed,
    raw_text := raw.rawFields,
    source_file_checksum := checksum,
    created_at := now, updated_at := now }

/-- The per-row loop (step 6): build, upsert, count.  `marked_duplicate`
    increments no counter, exactly as in the source. -/
def processRows (source : ExpenseSource) (checksum : String)
    (policy : DuplicatePolicy) (env : UploadEnv) :
    List RawTransaction → Nat → Nat × Nat × Nat → Store →
    (Nat × Nat × Nat) × Store
  | [], _, counters, s => (counters, s)
  | raw :: rest, i, counters, s =>
    let expense := buildExpense raw source checksum env.now2
    let freshId := env.freshIds.getD i ""
    let step := upsertExpense expense policy freshId env.now2 s
    let counters' :=
      match step.1.action with
      | UpsertAction.created => (counters.1 + 1, counters.2.1, counters.2.2)
      | UpsertAction.skipped => (counters.1, counters.2.1 + 1, counters.2.2)
      | UpsertAction.updated => (counters.1, counters.2.1, counters.2.2 + 1)
      | UpsertAction.marked_duplicate => counters
    processRows source checksum policy env rest (i + 1) counters' step.2

/-- Model of `upload(file, source, password?, duplicatePolicy)`
    (src/composables/useUpload.ts lines 78–239). -/
def upload (file : FileModel) (source : ExpenseSource)
    (duplicatePolicy : DuplicatePolicy) (env : UploadEnv) (st : SysState) :
    UploadOutcome :=
  let initialJob : ImportJob :=
    { jobId := env.jobId, status := "queued", source := source,
      fileName := file.name, source_file_checksum := "",
      created := 0, skipped := 0, updated := 0, errors := [],
      started_at := env.now, finished_at := none }
  let checksum := computeFileChecksum file.bytes
  match shortCircuitIfAlreadyProcessed st.jobs checksum with
  | some existingJob =>
    -- Step 2: short-circuit — synthesize a terminal completed job and
    -- return before createJob(processing), extraction, parsing, upserts.
    let shortCircuitJob : ImportJob :=
      { existingJob with
        jobId := env.jobId, started_at := env.now,
        finished_at := some env.now2, status := "completed",
        errors := ["File already processed in job " ++ existingJob.jobId ++
                   ". All records skipped."] }
    { result := Except.ok shortCircuitJob, job := some shortCircuitJob,
      jobs := setJob st.jobs shortCircuitJob, expenses := st.expenses,
      parserInvoked := false }
  | none =>
    let processingJob :=
      { initialJob with
        status := "processing",
        source_file_checksum := checksum }
    let jobs1 := setJob st.jobs processingJob
    match file.text with
    | Except.error msg =>
      -- Step 4 failed: the catch block marks the job failed and rethrows.
      let failedJob :=
        { processingJob with
          status := "failed",
          finished_at := some env.now2, errors := [msg] }
      { result := Except.error msg, job := some failedJob,
        jobs := setJob jobs1 failedJob, expenses := st.expenses,
        parserInvoked := false }
    | Except.ok pdfText =>
      let rawTransactions := getParser source pdfText
      if rawTransactions.isEmpty then
        let msg := "No transactions found in the PDF. Please verify the source and file format."
        let failedJob :=
          { processingJob with
            status := "failed",
            finished_at := some env.now2, errors := [msg] }
        { result := Except.error msg, job := some failedJob,
          jobs := setJob jobs1 failedJob, expenses := st.expenses,
          parserInvoked := true }
      else
        let r := processRows source checksum duplicatePolicy env
          rawTransactions 0 (0, 0, 0) st.expenses
        let finalJob :=
          { processingJob with
            status := "completed",
            created := r.1.1, skipped := r.1.2.1, updated := r.1.2.2,
            finished_at := some env.now2 }
        { result := Except.ok finalJob, job := some finalJob,
          jobs := setJob jobs1 finalJob, expenses := r.2,
          parserInvoked := true }

/-- Model of `normalizeAmount` as the original spec sentence describes it,
    with round-half-away-from-zero at the cent. -/
def specNormalizeAmountHalfAway (raw : String) : ℚ :=
  match parseFloatQ (jsTrimList (raw.data.filter (fun c => ¬ strippedAmountChar c))) with
  | none => 0
  | some parsed => specRoundHalfAwayCent parsed

/-! ## Concrete fixtures for witnesses and counterexamples -/

/-- A canonical expense whose document key is its fingerprint. -/
def fixExpense : CanonicalExpense :=
  { id := "fp1", fingerprint := "fp1", source := ExpenseSource.axis,
    source_transaction_id := none, date := "2026-01-01", amount := 1000,
    currency := "INR", vendor := "ACME", category := none,
    status := TransactionStatus.completed, raw_text := [],
    source_file_checksum := "sha256:x", created_at := "t0",
    updated_at := "t0" }

/-- A second expense normalizing to the same document key. -/
def fixExpenseB : CanonicalExpense :=
  { fixExpense with vendor := "ACME LTD", amount := 1001 }

/-- An expense whose `source_transaction_id` is the empty string. -/
def fixExpenseEmptyTid : CanonicalExpense :=
  { fixExpense with source_transaction_id := some "" }

/-- The document the `created` branch would write for `fixExpense`. -/
def fixStoredOrig : StoredDoc := { fields := fixExpense }

/-- A store already holding `fixExpense`'s key. -/
def fixOccupied : Store := [("fp1", fixStoredOrig)]

/-- The Axis Bank line of the end-to-end scenario. -/
def axisC4Line : String :=
  "01-01-2026 12345 NEFT ACME VENDORS PVT LTD 1000.00 49000.00"

/-- The candidate the Axis parser produces for `axisC4Line`. -/
def axisC4Candidate : RawTransaction :=
  { sourceTransactionId := none, date := "01-01-2026", amount := "1000.00",
    vendor := "12345 NEFT ACME VENDORS PVT LTD",
    transactionType := some "DEBIT", category := none,
    status := some TransactionStatus.completed,
    rawFields := [("date", "01-01-2026"), ("amount", "1000.00"),
                  ("vendor", "12345 NEFT ACME VENDORS PVT LTD"),
                  ("line", "01-01-2026 12345 NEFT ACME VENDORS PVT LTD 1000.00 49000.00")] }

/-- A PhonePe block whose anchor amount is `₹0`. -/
def ppeZeroText : String := "V\n10 Feb 2026\n₹0"

/-- The candidate the PhonePe parser emits for `ppeZeroText`: its amount
    is the literal "0". -/
def ppeZeroCandidate : RawTransaction :=
  { sourceTransactionId := none, date := "10 Feb 2026", amount := "0",
    vendor := "V", transactionType := some "", category := none,
    status := some TransactionStatus.completed,
    rawFields := [("date", "10 Feb 2026"), ("amount", "0"), ("vendor", "V"),
                  ("status", "Completed"), ("transactionType", "")] }

/-- SHA-256 of the empty byte string, prefixed as a file checksum. -/
def emptyFileChecksum : String :=
  "sha256:e3b0c44298fc1c149afbf4c8996fb92427ae41e4649b934ca495991b7852b855"

/-- A prior completed import job for the empty file. -/
def fixPrior : ImportJob :=
  { jobId := "job-prior", status := "completed", source := ExpenseSource.axis,
    fileName := "stmt.pdf", source_file_checksum := emptyFileChecksum,
    created := 3, skipped := 1, updated := 0, errors := [],
    started_at := "t0", finished_at := some "t1" }

/-- The re-uploaded file (same bytes, hence same checksum). -/
def fixFile : FileModel :=
  { name := "stmt.pdf", bytes := [], text := Except.ok "" }

/-- Environment for the re-upload call. -/
def fixEnv : UploadEnv :=
  { jobId := "job-new", now := "t2", now2 := "t3", freshIds := [] }

/-- System state holding the prior completed job. -/
def fixState : SysState := { jobs := [fixPrior], expenses := [] }

/-! ## Store lemmas -/

/-- Reading back the key just written. -/
theorem getDoc_setDoc_self (s : Store) (k : String) (v : StoredDoc) :
    getDoc (setDoc s k v) k = some v := by
  induction s with
  | nil => simp [setDoc, getDoc]
  | cons p rest ih =>
    obtain ⟨a, w⟩ := p
    by_cases h : a = k
    · simp [setDoc, getDoc, h]
    · simp [setDoc, getDoc, h, ih]

/-- Writing one key leaves every other key unchanged. -/
theorem getDoc_setDoc_ne (s : Store) (k k' : String) (v : StoredDoc)
    (h : k' ≠ k) : getDoc (setDoc s k v) k' = getDoc s k' := by
  have h' : k ≠ k' := fun hh => h hh.symm
  induction s with
  | nil => simp [setDoc, getDoc, h']
  | cons p rest ih =>
    obtain ⟨a, w⟩ := p
    by_cases ha : a = k
    · subst ha
      simp [setDoc, getDoc, h']
    · simp [setDoc, getDoc, ha, ih]

/-- A key that reads as absent occurs zero times. -/
theorem countKey_of_none (s : Store) (k : String) (h : getDoc s k = none) :
    countKey s k = 0 := by
  induction s with
  | nil => rfl
  | cons p rest ih =>
    obtain ⟨a, w⟩ := p
    by_cases ha : a = k
    · simp [getDoc, ha] at h
    · simp [getDoc, ha] at h
      simp [countKey, ha]
      exact ih h

/-- Writing an absent key adds exactly one occurrence of it. -/
theorem countKey_setDoc_of_none (s : Store) (k : String) (v : StoredDoc)
    (h : getDoc s k = none) : countKey (setDoc s k v) k = 1 := by
  induction s with
  | nil => simp [setDoc, countKey]
  | cons p rest ih =>
    obtain ⟨a, w⟩ := p
    by_cases ha : a = k
    · simp [getDoc, ha] at h
    · simp [getDoc, ha] at h
      simp [setDoc, ha, countKey]
      exact ih h

/-- Writing an absent key grows the store by one document. -/
theorem storeSize_setDoc_of_none (s : Store) (k : String) (v : StoredDoc)
    (h : getDoc s k = none) : storeSize (setDoc s k v) = storeSize s + 1 := by
  induction s with
  | nil => rfl
  | cons p rest ih =>
    obtain ⟨a, w⟩ := p
    by_cases ha : a = k
    · simp [getDoc, ha] at h
    · simp [getDoc, ha] at h
      simp only [setDoc, if_neg ha, storeSize, List.length_cons]
      have := ih h
      simp only [storeSize] at this
      omega

/-! ## C1 — idempotent re-upload under policy `skip` -/

/-- C1 counterexample: the claim quantifies over *every* store state and
    asserts the first call returns `created`; on a store already holding
    the key of the record the first call returns `skipped` instead. -/
theorem upsertSkip_occupied_first_call_skipped :
    (upsertExpense fixExpense DuplicatePolicy.skip "auto1" "t1" fixOccupied).1.action =
      UpsertAction.skipped ∧
    UpsertAction.skipped ≠ UpsertAction.created := by
  constructor
  · decide
  · decide

/-- C1 (amended): for every canonical expense and every store state in
    which the document key of the record is absent, upserting the same record
    twice under policy `skip` yields exactly one stored document under
    that key: the first call returns `created`, the second performs no
    write and returns `skipped` with the existing key, leaving the store
    unchanged. -/
theorem upsertSkip_idempotent_when_key_absent (e : CanonicalExpense)
    (f1 f2 n1 n2 : String) (s : Store)
    (habs : getDoc s (upsertDocId e) = none) :
    (upsertExpense e DuplicatePolicy.skip f1 n1 s).1.action = UpsertAction.created ∧
    (upsertExpense e DuplicatePolicy.skip f2 n2
        (upsertExpense e DuplicatePolicy.skip f1 n1 s).2).1.action = UpsertAction.skipped ∧
    (upsertExpense e DuplicatePolicy.skip f2 n2
        (upsertExpense e DuplicatePolicy.skip f1 n1 s).2).1.id = upsertDocId e ∧
    (upsertExpense e DuplicatePolicy.skip f2 n2
        (upsertExpense e DuplicatePolicy.skip f1 n1 s).2).2 =
      (upsertExpense e DuplicatePolicy.skip f1 n1 s).2 ∧
    countKey (upsertExpense e DuplicatePolicy.skip f1 n1 s).2 (upsertDocId e) = 1 := by
  have h1 : upsertExpense e DuplicatePolicy.skip f1 n1 s =
      ({ action := UpsertAction.created, id := upsertDocId e },
        setDoc s (upsertDocId e) { fields := { e with id := upsertDocId e } }) := by
    simp [upsertExpense, habs]
  have h2 := getDoc_setDoc_self s (upsertDocId e)
    { fields := { e with id := upsertDocId e } }
  have h3 : upsertExpense e DuplicatePolicy.skip f2 n2
      (setDoc s (upsertDocId e) { fields := { e with id := upsertDocId e } }) =
      ({ action := UpsertAction.skipped, id := upsertDocId e },
        setDoc s (upsertDocId e) { fields := { e with id := upsertDocId e } }) := by
    simp [upsertExpense, h2]
  rw [h1]
  refine ⟨rfl, ?_, ?_, ?_, ?_⟩
  · rw [h3]
  · rw [h3]
  · rw [h3]
  · exact countKey_setDoc_of_none s (upsertDocId e) _ habs

/-- C1 witness at a concrete input. -/
theorem upsertSkip_idempotent_witness :
    getDoc ([] : Store) (upsertDocId fixExpense) = none ∧
    (upsertExpense fixExpense DuplicatePolicy.skip "a1" "t1" ([] : Store)).1.action =
      UpsertAction.created :=
  ⟨by decide,
   (upsertSkip_idempotent_when_key_absent fixExpense "a1" "a2" "t1" "t2" []
     (by decide)).1⟩

/-! ## C2 — the concurrent-upsert race never double-creates

`upsertExpense` wraps its read-then-write in one `runTransaction`, so
each call is one atomic step on the store and a concurrent pair of calls
executes as one of the two serial orders; quantifying over both
expenses covers both orders. -/

/-- C2: two upserts of the same key under `skip` never both return
    `created`, and from a state where the key is absent the first
    returns `created` and the second lands in the duplicate branch with
    `skipped`. -/
theorem upsertSkip_concurrent_no_double_create (e1 e2 : CanonicalExpense)
    (f1 f2 n1 n2 : String) (s : Store)
    (hkey : upsertDocId e1 = upsertDocId e2) :
    (¬ ((upsertExpense e1 DuplicatePolicy.skip f1 n1 s).1.action = UpsertAction.created ∧
        (upsertExpense e2 DuplicatePolicy.skip f2 n2
          (upsertExpense e1 DuplicatePolicy.skip f1 n1 s).2).1.action = UpsertAction.created)) ∧
    (getDoc s (upsertDocId e1) = none →
      (upsertExpense e1 DuplicatePolicy.skip f1 n1 s).1.action = UpsertAction.created ∧
      (upsertExpense e2 DuplicatePolicy.skip f2 n2
        (upsertExpense e1 DuplicatePolicy.skip f1 n1 s).2).1.action = UpsertAction.skipped) := by
  cases hget : getDoc s (upsertDocId e1) with
  | some ex =>
    have h1 : (upsertExpense e1 DuplicatePolicy.skip f1 n1 s).1.action =
        UpsertAction.skipped := by
      simp [upsertExpense, hget]
    constructor
    · rintro ⟨hc, _⟩
      rw [h1] at hc
      exact absurd hc (by decide)
    · intro habs
      exact absurd habs (Option.some_ne_none ex)
  | none =>
    have h1 : upsertExpense e1 DuplicatePolicy.skip f1 n1 s =
        ({ action := UpsertAction.created, id := upsertDocId e1 },
          setDoc s (upsertDocId e1) { fields := { e1 with id := upsertDocId e1 } }) := by
      simp [upsertExpense, hget]
    have h2 : getDoc (setDoc s (upsertDocId e1)
        { fields := { e1 with id := upsertDocId e1 } }) (upsertDocId e2) =
        some { fields := { e1 with id := upsertDocId e1 } } := by
      rw [← hkey]
      exact getDoc_setDoc_self s (upsertDocId e1) _
    have h3 : (upsertExpense e2 DuplicatePolicy.skip f2 n2
        (setDoc s (upsertDocId e1)
          { fields := { e1 with id := upsertDocId e1 } })).1.action =
        UpsertAction.skipped := by
      simp [upsertExpense, h2]
    constructor
    · rintro ⟨_, hc⟩
      rw [h1] at hc
      rw [h3] at hc
      exact absurd hc (by decide)
    · intro _
      rw [h1]
      exact ⟨rfl, h3⟩

/-- C2 witness: concrete race from the empty store. -/
theorem upsertSkip_concurrent_witness :
    upsertDocId fixExpense = upsertDocId fixExpenseB ∧
    ((upsertExpense fixExpense DuplicatePolicy.skip "a1" "t1" ([] : Store)).1.action =
       UpsertAction.created ∧
     (upsertExpense fixExpenseB DuplicatePolicy.skip "a2" "t2"
       (upsertExpense fixExpense DuplicatePolicy.skip "a1" "t1" ([] : Store)).2).1.action =
       UpsertAction.skipped) :=
  ⟨by decide,
   (upsertSkip_concurrent_no_double_create fixExpense fixExpenseB "a1" "a2" "t1" "t2" []
     (by decide)).2 (by decide)⟩

/-! ## C8 — `mark_duplicate` writes at a fresh key and leaves the
original untouched -/

/-- C8: when the key already exists, `mark_duplicate` writes the new
    record at the freshly generated key carrying `_duplicateOf` (the
    existing key) and `_isDuplicate = true`, returns
    `marked_duplicate` with the new key, grows the collection by one
    document, and changes no other key — in particular the original
    document is unchanged. -/
theorem upsertMarkDuplicate_fresh_key_frame (e : CanonicalExpense)
    (freshId now : String) (s : Store) (orig : StoredDoc)
    (hex : getDoc s (upsertDocId e) = some orig)
    (hfr : getDoc s freshId = none) :
    (upsertExpense e DuplicatePolicy.mark_duplicate freshId now s).1 =
      { action := UpsertAction.marked_duplicate, id := freshId } ∧
    getDoc (upsertExpense e DuplicatePolicy.mark_duplicate freshId now s).2 freshId =
      some { fields := { e with updated_at := now },
             dupOf := some (upsertDocId e), isDup := true } ∧
    storeSize (upsertExpense e DuplicatePolicy.mark_duplicate freshId now s).2 =
      storeSize s + 1 ∧
    getDoc (upsertExpense e DuplicatePolicy.mark_duplicate freshId now s).2
      (upsertDocId e) = some orig ∧
    (∀ k, k ≠ freshId →
      getDoc (upsertExpense e DuplicatePolicy.mark_duplicate freshId now s).2 k =
        getDoc s k) := by
  have hne : upsertDocId e ≠ freshId := by
    intro heq
    rw [heq, hfr] at hex
    exact Option.noConfusion hex
  have h1 : upsertExpense e DuplicatePolicy.mark_duplicate freshId now s =
      ({ action := UpsertAction.marked_duplicate, id := freshId },
        setDoc s freshId
          { fields := { e with updated_at := now },
            dupOf := some (upsertDocId e), isDup := true }) := by
    simp [upsertExpense, hex]
  rw [h1]
  refine ⟨rfl, getDoc_setDoc_self s freshId _, storeSize_setDoc_of_none s freshId _ hfr, ?_, ?_⟩
  · rw [getDoc_setDoc_ne s freshId (upsertDocId e) _ hne]
    exact hex
  · intro k hk
    exact getDoc_setDoc_ne s freshId k _ hk

/-- C8 witness at a concrete occupied store. -/
theorem upsertMarkDuplicate_fresh_key_frame_witness :
    getDoc fixOccupied (upsertDocId fixExpenseB) = some fixStoredOrig ∧
    getDoc fixOccupied "auto1" = none ∧
    (upsertExpense fixExpenseB DuplicatePolicy.mark_duplicate "auto1" "t5" fixOccupied).1 =
      { action := UpsertAction.marked_duplicate, id := "auto1" } :=
  ⟨by decide, by decide,
   (upsertMarkDuplicate_fresh_key_frame fixExpenseB "auto1" "t5" fixOccupied
     fixStoredOrig (by decide) (by decide)).1⟩

/-! ## C9 — the duplicate document keeps the incoming `id` field -/

/-- C9: the `mark_duplicate` branch spreads the incoming expense
    unchanged except for `updated_at` and the two marker fields, so the
    stored duplicate keeps the `id` of the expense — which, for every
    expense the orchestrator builds, equals the key of the original document
    (the `_duplicateOf` value) — while only the returned result id is
    the fresh key; the `id` the duplicate stores differs from its own
    document key. -/
theorem upsertMarkDuplicate_stored_id_is_original_key (e : CanonicalExpense)
    (freshId now : String) (s : Store) (orig : StoredDoc)
    (hid : e.id = upsertDocId e)
    (hex : getDoc s (upsertDocId e) = some orig)
    (hfr : getDoc s freshId = none) :
    (∀ (raw : RawTransaction) (src : ExpenseSource) (cks ts : String),
      (buildExpense raw src cks ts).id = upsertDocId (buildExpense raw src cks ts)) ∧
    (∃ d : StoredDoc,
      getDoc (upsertExpense e DuplicatePolicy.mark_duplicate freshId now s).2 freshId =
        some d ∧
      d.fields.id = e.id ∧
      d.fields.id = upsertDocId e ∧
      d.dupOf = some (upsertDocId e) ∧
      d.fields.id ≠ freshId) ∧
    (upsertExpense e DuplicatePolicy.mark_duplicate freshId now s).1.id = freshId := by
  have hne : upsertDocId e ≠ freshId := by
    intro heq
    rw [heq, hfr] at hex
    exact Option.noConfusion hex
  have h1 : upsertExpense e DuplicatePolicy.mark_duplicate freshId now s =
      ({ action := UpsertAction.marked_duplicate, id := freshId },
        setDoc s freshId
          { fields := { e with updated_at := now },
            dupOf := some (upsertDocId e), isDup := true }) := by
    simp [upsertExpense, hex]
  refine ⟨?_, ?_, ?_⟩
  · intro raw src cks ts
    simp [buildExpense, upsertDocId]
  · refine ⟨{ fields := { e with updated_at := now },
              dupOf := some (upsertDocId e), isDup := true }, ?_, rfl, ?_, rfl, ?_⟩
    · rw [h1]
      exact getDoc_setDoc_self s freshId _
    · exact hid
    · show e.id ≠ freshId
      rw [hid]
      exact hne
  · rw [h1]

/-- C9 witness at a concrete occupied store. -/
theorem upsertMarkDuplicate_stored_id_witness :
    fixExpenseB.id = upsertDocId fixExpenseB ∧
    (upsertExpense fixExpenseB DuplicatePolicy.mark_duplicate "auto1" "t5" fixOccupied).1.id =
      "auto1" :=
  ⟨by decide,
   (upsertMarkDuplicate_stored_id_is_original_key fixExpenseB "auto1" "t5" fixOccupied
     fixStoredOrig (by decide) (by decide) (by decide)).2.2⟩

/-! ## C10 — key selection keeps an empty-string `source_transaction_id` -/

/-- C10: `expense.source_transaction_id ?? expense.fingerprint` falls
    through only on `null`/`undefined`; any present string — the empty
    string included — becomes the document key, so an empty-string
    `source_transaction_id` yields the empty key rather than the
    fingerprint. -/
theorem upsertDocId_prefers_source_transaction_id (e : CanonicalExpense) :
    (∀ tid : String, e.source_transaction_id = some tid → upsertDocId e = tid) ∧
    (e.source_transaction_id = none → upsertDocId e = e.fingerprint) ∧
    (e.source_transaction_id = some "" →
      upsertDocId e = "" ∧ (e.fingerprint ≠ "" → upsertDocId e ≠ e.fingerprint)) := by
  refine ⟨?_, ?_, ?_⟩
  · intro tid h
    simp [upsertDocId, h]
  · intro h
    simp [upsertDocId, h]
  · intro h
    constructor
    · simp [upsertDocId, h]
    · intro hf hcontra
      rw [show upsertDocId e = "" by simp [upsertDocId, h]] at hcontra
      exact hf hcontra.symm

/-- C10 witness: an expense carrying the empty-string transaction id. -/
theorem upsertDocId_empty_tid_witness :
    fixExpenseEmptyTid.source_transaction_id = some "" ∧
    upsertDocId fixExpenseEmptyTid = "" :=
  ⟨by decide,
   ((upsertDocId_prefers_source_transaction_id fixExpenseEmptyTid).2.2 (by decide)).1⟩

/-! ## C7 — checksum short-circuit on re-upload -/

/-- C7: when the checksum of the file matches a prior completed job, `upload`
    synthesizes a new terminal `completed` job whose errors warn about
    the prior job id, writes that job, touches no expense document and
    never invokes the parser. -/
theorem upload_short_circuit_skips_parse (file : FileModel)
    (source : ExpenseSource) (policy : DuplicatePolicy) (env : UploadEnv)
    (st : SysState) (prior : ImportJob)
    (hsc : shortCircuitIfAlreadyProcessed st.jobs
      (computeFileChecksum file.bytes) = some prior) :
    ∃ j : ImportJob,
      (upload file source policy env st).result = Except.ok j ∧
      (upload file source policy env st).job = some j ∧
      (upload file source policy env st).jobs = setJob st.jobs j ∧
      j.status = "completed" ∧
      j.errors = ["File already processed in job " ++ prior.jobId ++
                  ". All records skipped."] ∧
      (upload file source policy env st).expenses = st.expenses ∧
      (upload file source policy env st).parserInvoked = false := by
  refine ⟨{ prior with
            jobId := env.jobId, started_at := env.now,
            finished_at := some env.now2, status := "completed",
            errors := ["File already processed in job " ++ prior.jobId ++
                       ". All records skipped."] }, ?_, ?_, ?_, rfl, rfl, ?_, ?_⟩ <;>
    simp [upload, hsc]

/-- C7 witness: re-uploading the empty file over a store that holds the
    matching completed job. -/
theorem upload_short_circuit_witness :
    shortCircuitIfAlreadyProcessed fixState.jobs
      (computeFileChecksum fixFile.bytes) = some fixPrior ∧
    ∃ j : ImportJob,
      (upload fixFile ExpenseSource.axis DuplicatePolicy.skip fixEnv fixState).result =
        Except.ok j ∧
      (upload fixFile ExpenseSource.axis DuplicatePolicy.skip fixEnv fixState).job =
        some j ∧
      (upload fixFile ExpenseSource.axis DuplicatePolicy.skip fixEnv fixState).jobs =
        setJob fixState.jobs j ∧
      j.status = "completed" ∧
      j.errors = ["File already processed in job " ++ fixPrior.jobId ++
                  ". All records skipped."] ∧
      (upload fixFile ExpenseSource.axis DuplicatePolicy.skip fixEnv fixState).expenses =
        fixState.expenses ∧
      (upload fixFile ExpenseSource.axis DuplicatePolicy.skip fixEnv fixState).parserInvoked =
        false :=
  ⟨by decide,
   upload_short_circuit_skips_parse fixFile ExpenseSource.axis DuplicatePolicy.skip
     fixEnv fixState fixPrior (by decide)⟩

/-! ## C5 — `normalizeAmount` rounding -/

/-- Adding a half and flooring is round-half-toward-positive-infinity. -/
theorem floor_add_half_eq (x : ℚ) :
    ⌊x + 1 / 2⌋ = if x - (⌊x⌋ : ℚ) < 1 / 2 then ⌊x⌋ else ⌈x⌉ := by
  by_cases h : x - (⌊x⌋ : ℚ) < 1 / 2
  · rw [if_pos h]
    refine Int.floor_eq_iff.mpr ⟨?_, ?_⟩
    · have := Int.floor_le x
      linarith
    · linarith
  · rw [if_neg h]
    push_neg at h
    have hlt : x - (⌊x⌋ : ℚ) < 1 := by
      have := Int.lt_floor_add_one x
      linarith
    have hceil : ⌈x⌉ = ⌊x⌋ + 1 := by
      refine Int.ceil_eq_iff.mpr ⟨?_, ?_⟩ <;> push_cast <;> linarith
    rw [hceil]
    refine Int.floor_eq_iff.mpr ⟨?_, ?_⟩ <;> push_cast <;> linarith

/-- C5 counterexample: on `"-0.125"` the code returns `-0.12`
    (`Math.round` rounds the tie at `-12.5` toward positive infinity),
    while round-half-away-from-zero at the cent — the rounding rule the
    claim states — gives `-0.13`. -/
theorem normalizeAmount_not_half_away :
    normalizeAmount "-0.125" = -(12 : ℚ) / 100 ∧
    specNormalizeAmountHalfAway "-0.125" = -(13 : ℚ) / 100 ∧
    normalizeAmount "-0.125" ≠ specNormalizeAmountHalfAway "-0.125" := by
  refine ⟨by decide, by decide, by decide⟩

/-- C5 (amended): `normalizeAmount` strips the currency symbols
    `₹ $ € £`, commas and whitespace, parses the remainder as a decimal,
    rounds to two places at the cent with ties toward positive infinity
    (which agrees with round-half-away-from-zero on all nonnegative
    amounts), returns 0 if unparseable, and satisfies the four quoted
    examples. -/
theorem normalizeAmount_half_up_characterization :
    (∀ s : String, normalizeAmount s = specNormalizeAmountHalfUp s) ∧
    normalizeAmount "₹1,234.56" = (1234.56 : ℚ) ∧
    normalizeAmount "1,00,000.00" = (100000.00 : ℚ) ∧
    normalizeAmount "100.999" = (101.00 : ℚ) ∧
    normalizeAmount "N/A" = 0 := by
  refine ⟨?_, by decide, by decide, by decide, by decide⟩
  intro s
  have key : ∀ o : Option ℚ,
      (match o with
       | none => (0 : ℚ)
       | some parsed => (jsMathRound (parsed * 100) : ℚ) / 100) =
      (match o with
       | none => (0 : ℚ)
       | some parsed => specRoundHalfUpCent parsed) := by
    intro o
    cases o with
    | none => rfl
    | some p =>
      show (jsMathRound (p * 100) : ℚ) / 100 = specRoundHalfUpCent p
      unfold jsMathRound specRoundHalfUpCent
      rw [floor_add_half_eq (p * 100)]
      by_cases hc : p * 100 - (⌊p * 100⌋ : ℚ) < 1 / 2
      · rw [if_pos hc, if_pos hc]
      · rw [if_neg hc, if_neg hc]
  unfold normalizeAmount specNormalizeAmountHalfUp
  exact key _

/-! ## C6 — fingerprint determinism and digest shape -/

/-- `List.getD` returns a member of the list or the default. -/
theorem getD_mem_or {α : Type} (l : List α) (i : Nat) (d : α) :
    l.getD i d ∈ l ∨ l.getD i d = d := by
  induction l generalizing i with
  | nil =>
    right
    cases i <;> rfl
  | cons a rest ih =>
    cases i with
    | zero => left; exact List.mem_cons_self a rest
    | succ n =>
      rcases ih n with h | h
      · left; exact List.mem_cons_of_mem a h
      · right; exact h

/-- Every nibble renders to one of the sixteen lowercase hex digits. -/
theorem hexCharOf_mem (n : Nat) : hexCharOf n ∈ lowHexList := by
  unfold hexCharOf
  rcases getD_mem_or lowHexList (n % 16) '0' with h | h
  · exact h
  · rw [h]; decide

/-- Every SHA-256 digest rendering is 64 characters long. -/
theorem sha256Hex_length (msg : List Nat) : (sha256Hex msg).length = 64 := by
  show ((shaStateWords (sha256Words msg)).flatMap wordHex).length = 64
  simp [shaStateWords, wordHex]

/-- Every character of a digest rendering is a lowercase hex digit. -/
theorem sha256Hex_chars (msg : List Nat) :
    ∀ c ∈ (sha256Hex msg).data, c ∈ lowHexList := by
  intro c hc
  have hm : c ∈ (shaStateWords (sha256Words msg)).flatMap wordHex := hc
  rw [List.mem_flatMap] at hm
  obtain ⟨w, _, hw⟩ := hm
  rw [wordHex, List.mem_map] at hw
  obtain ⟨i, _, hi⟩ := hw
  rw [← hi]
  exact hexCharOf_mem _

/-- C6: `computeFingerprint` is deterministic, hashes the payload
    `date + "|" + amount.toFixed(2) + "|" + vendor + "|" +
     type.toUpperCase().trim()` and renders it as 64 lowercase hex
    characters, and the omitted type argument defaults to the empty
    string. -/
theorem computeFingerprint_deterministic_hex64 :
    (∀ (d : String) (a : ℚ) (v t : String),
      computeFingerprint d a v t = computeFingerprint d a v t) ∧
    (∀ (d : String) (a : ℚ) (v t : String),
      computeFingerprint d a v t =
        sha256Hex (utf8Bytes (d ++ "|" ++ toFixed2 a ++ "|" ++ v ++ "|" ++
          String.mk (jsTrimList (asciiUpperList t.data))))) ∧
    (∀ (d : String) (a : ℚ) (v t : String),
      (computeFingerprint d a v t).length = 64 ∧
      ∀ c ∈ (computeFingerprint d a v t).data, c ∈ lowHexList) ∧
    (∀ (d : String) (a : ℚ) (v : String),
      computeFingerprint d a v = computeFingerprint d a v "") :=
  ⟨fun _ _ _ _ => rfl,
   fun _ _ _ _ => rfl,
   fun _ _ _ _ => ⟨sha256Hex_length _, sha256Hex_chars _⟩,
   fun _ _ _ => rfl⟩

/-- C6 witness at a concrete fingerprint call. -/
theorem computeFingerprint_hex64_witness :
    (computeFingerprint "2026-02-10" (349.5 : ℚ) "ACME STORE" "").length = 64 :=
  (computeFingerprint_deterministic_hex64.2.2.1 "2026-02-10" (349.5 : ℚ)
    "ACME STORE" "").1

/-! ## C3 — parser emission guards -/

/-- Distinct character lists give distinct strings. -/
theorem mkString_ne (l m : List Char) (h : l ≠ m) :
    String.mk l ≠ String.mk m :=
  fun he => h (congrArg String.data he)

/-- The Axis per-line guard: an emitted candidate has an amount token
    other than `"0"` (and nonempty) and a nonempty vendor. -/
theorem axisParseLine_guard (l : List Char) (c : RawTransaction)
    (h : AxisBankParser.parseLine l = some c) :
    c.amount ≠ "0" ∧ c.amount ≠ "" ∧ c.vendor ≠ "" := by
  unfold AxisBankParser.parseLine at h
  split at h
  · exact absurd h (by simp)
  · split at h
    · exact absurd h (by simp)
    · dsimp only at h
      split at h
      · rename_i amounts hguard
        injection h with h'
        subst h'
        refine ⟨?_, ?_, ?_⟩
        · exact mkString_ne _ _ hguard.2
        · refine mkString_ne _ _ ?_
          intro he
          rw [he] at hguard
          exact hguard.1 rfl
        · show String.mk (if _ then _ else _) ≠ ""
          split
          · decide
          · rename_i hnarr
            refine mkString_ne _ _ ?_
            intro he
            rw [he] at hnarr
            exact hnarr rfl
      · exact absurd h (by simp)

/-- The HDFC per-line guard. -/
theorem hdfcParseLine_guard (l : List Char) (c : RawTransaction)
    (h : HDFCBankParser.parseLine l = some c) :
    c.amount ≠ "0" ∧ c.amount ≠ "" ∧ c.vendor ≠ "" := by
  unfold HDFCBankParser.parseLine at h
  split at h
  · exact absurd h (by simp)
  · split at h
    · exact absurd h (by simp)
    · dsimp only at h
      split at h
      · rename_i hguard
        injection h with h'
        subst h'
        refine ⟨?_, ?_, ?_⟩
        · exact mkString_ne _ _ hguard.2.1
        · refine mkString_ne _ _ ?_
          intro he
          rw [he] at hguard
          exact hguard.1 rfl
        · refine mkString_ne _ _ ?_
          intro he
          rw [he] at hguard
          exact hguard.2.2 rfl
      · exact absurd h (by simp)

/-- The PayZapp vendor is never the empty list. -/
theorem payzapVendorOf_ne_nil (line : List Char) : payzapVendorOf line ≠ [] := by
  unfold payzapVendorOf
  dsimp only
  split
  · decide
  · rename_i hnarr
    intro he
    rw [he] at hnarr
    exact hnarr rfl

/-- The PayZapp per-line guard. -/
theorem payzapParseLine_guard (l : List Char) (next? : Option (List Char))
    (c : RawTransaction) (h : PayZapParser.parseLine l next? = some c) :
    c.amount ≠ "0" ∧ c.amount ≠ "" ∧ c.vendor ≠ "" := by
  unfold PayZapParser.parseLine at h
  split at h
  · exact absurd h (by simp)
  · split at h
    · exact absurd h (by simp)
    · dsimp only at h
      split at h
      · rename_i hguard
        injection h with h'
        subst h'
        refine ⟨?_, ?_, ?_⟩
        · exact mkString_ne _ _ hguard.2
        · refine mkString_ne _ _ ?_
          intro he
          rw [he] at hguard
          exact hguard.1 rfl
        · exact mkString_ne _ _ (payzapVendorOf_ne_nil l)
      · exact absurd h (by simp)

/-- The PayZapp loop preserves the per-line guard. -/
theorem payzapLoop_guard : ∀ (ls : List (List Char)) (c : RawTransaction),
    c ∈ PayZapParser.loop ls →
    c.amount ≠ "0" ∧ c.amount ≠ "" ∧ c.vendor ≠ "" := by
  intro ls
  induction ls with
  | nil =>
    intro c h
    simp [PayZapParser.loop] at h
  | cons l rest ih =>
    intro c h
    unfold PayZapParser.loop at h
    split at h
    · rename_i t heq
      rcases List.mem_cons.mp h with hc | hc
      · subst hc
        exact payzapParseLine_guard l rest.head? c heq
      · exact ih c hc
    · exact ih c h

/-- The PhonePe scan only emits a candidate when both a vendor line and
    a date were found. -/
theorem phonePeGo_guard : ∀ (fut prev : List (List Char)) (c : RawTransaction),
    c ∈ PhonePeParser.go prev fut → c.vendor ≠ "" ∧ c.date ≠ "" := by
  intro fut
  induction fut with
  | nil =>
    intro prev c h
    simp [PhonePeParser.go] at h
  | cons l rest ih =>
    intro prev c h
    unfold PhonePeParser.go at h
    dsimp only at h
    split at h
    · rename_i t heq
      rcases List.mem_cons.mp h with hc | hc
      · subst hc
        split at heq
        · split at heq
          · rename_i hguard
            injection heq with h'
            subst h'
            constructor
            · refine mkString_ne _ _ ?_
              intro he
              rw [he] at hguard
              exact hguard.1 rfl
            · refine mkString_ne _ _ ?_
              intro he
              rw [he] at hguard
              exact hguard.2 rfl
          · exact absurd heq (by simp)
        · exact absurd heq (by simp)
      · exact ih _ c hc
    · exact ih _ c h

/-- C3 counterexample: the PhonePe parser emits a candidate whose
    amount is the literal "0" — the block `V / 10 Feb 2026 / ₹0` passes
    its `vendor && date` bar, which does not test the amount. -/
theorem phonePe_emits_zero_amount :
    PhonePeParser.parse ppeZeroText = [ppeZeroCandidate] ∧
    ppeZeroCandidate.amount = "0" ∧
    ppeZeroCandidate.vendor ≠ "" := by
  refine ⟨by decide, rfl, by decide⟩

/-- C3 (amended): Axis, HDFC and PayZapp emit a candidate only when the
    amount token is present and differs from the literal "0" and the
    vendor is nonempty (`"UNKNOWN"` when stripped to nothing); PhonePe
    emits only when a nonempty vendor and a date were found, regardless
    of the amount.  Rows failing these bars are dropped silently — every
    parser is a total function into a candidate list. -/
theorem parser_emission_guards :
    (∀ (text : String) (c : RawTransaction), c ∈ AxisBankParser.parse text →
      c.amount ≠ "0" ∧ c.amount ≠ "" ∧ c.vendor ≠ "") ∧
    (∀ (text : String) (c : RawTransaction), c ∈ HDFCBankParser.parse text →
      c.amount ≠ "0" ∧ c.amount ≠ "" ∧ c.vendor ≠ "") ∧
    (∀ (text : String) (c : RawTransaction), c ∈ PayZapParser.parse text →
      c.amount ≠ "0" ∧ c.amount ≠ "" ∧ c.vendor ≠ "") ∧
    (∀ (text : String) (c : RawTransaction), c ∈ PhonePeParser.parse text →
      c.vendor ≠ "" ∧ c.date ≠ "") := by
  refine ⟨?_, ?_, ?_, ?_⟩
  · intro text c h
    unfold AxisBankParser.parse at h
    rw [List.mem_filterMap] at h
    obtain ⟨l, _, hl⟩ := h
    exact axisParseLine_guard l c hl
  · intro text c h
    unfold HDFCBankParser.parse at h
    rw [List.mem_filterMap] at h
    obtain ⟨l, _, hl⟩ := h
    exact hdfcParseLine_guard l c hl
  · intro text c h
    unfold PayZapParser.parse at h
    exact payzapLoop_guard _ c h
  · intro text c h
    unfold PhonePeParser.parse at h
    exact phonePeGo_guard _ _ c h

/-- C3 witness: the Axis scenario line satisfies the guard. -/
theorem parser_emission_guards_witness :
    axisC4Candidate ∈ AxisBankParser.parse axisC4Line ∧
    axisC4Candidate.amount ≠ "0" :=
  ⟨by decide,
   (parser_emission_guards.1 axisC4Line axisC4Candidate (by decide)).1⟩

/-! ## C4 — the Axis Bank end-to-end line -/

/-- C4 counterexample: the parse of the scenario line yields a vendor
    that still begins with the 5-digit reference number "12345" — the
    stripping step removes only runs of six or more digits, so the
    claimed "reference number stripped" does not hold on this line. -/
theorem axis_c4_vendor_retains_reference :
    (AxisBankParser.parse axisC4Line).map (fun c => c.vendor) =
      ["12345 NEFT ACME VENDORS PVT LTD"] ∧
    "12345 NEFT ACME VENDORS PVT LTD" =
      "12345 " ++ "NEFT ACME VENDORS PVT LTD" ∧
    "12345 NEFT ACME VENDORS PVT LTD" ≠ "NEFT ACME VENDORS PVT LTD" := by
  refine ⟨by decide, rfl, by decide⟩

/-- C4 (amended): the line parses to exactly one candidate with date
    "01-01-2026", amount "1000.00", transactionType "DEBIT", and vendor
    "12345 NEFT ACME VENDORS PVT LTD" — containing the narration
    "NEFT ACME VENDORS PVT LTD", with the 5-digit reference retained
    because only 6-or-more-digit reference numbers are stripped. -/
theorem axis_c4_line_parse :
    AxisBankParser.parse axisC4Line = [axisC4Candidate] ∧
    axisC4Candidate.date = "01-01-2026" ∧
    axisC4Candidate.amount = "1000.00" ∧
    axisC4Candidate.vendor = "12345 " ++ "NEFT ACME VENDORS PVT LTD" ∧
    axisC4Candidate.transactionType = some "DEBIT" := by
  refine ⟨by decide, rfl, rfl, by decide, rfl⟩
